import Mathlib

/-!
Verification development for the gxpdf PDF assembly engine.

The definitions below are a shallow embedding of the Go sources:
  - internal/writer/resource_dictionary.go (ResourceDictionary and friends)
  - internal/writer/pdf_writer.go          (PdfWriter, Write, Close, xref, trailer)
  - internal/writer/pages.go               (page tree building, image XObjects)
  - creator/polygon.go, creator/ellipse.go, creator/bezier.go (page drawing API)

Go maps are modelled as association lists with insert-replace semantics
(lookup of a missing key yields the zero value, as in Go).  Byte output is
modelled as a list of natural numbers (one per byte); all emitted text is
ASCII, so a character corresponds to exactly one byte, and the fixed binary
marker bytes are given numerically.  Parts of the repository that are not in
the sources (the document model, the indirect-object model, collaborator
subsystems) are modelled from the specification and marked as such.
-/

namespace GxPdf

/-- A byte of output, as a natural number (< 256 for all real output). -/
abbrev Byte := Nat

/-- ASCII string literal to bytes: each character becomes its code point,
which for the ASCII text emitted by the writer is exactly one byte. -/
def strB (s : String) : List Byte := s.data.map Char.toNat

/-- Lookup in a Go map modelled as an association list. -/
def mapLookup {α β : Type} [DecidableEq α] : List (α × β) → α → Option β
  | [], _ => none
  | (k, v) :: rest, key => if k = key then some v else mapLookup rest key

/-- Insert into a Go map modelled as an association list: replaces the value
if the key is present, otherwise appends the binding. -/
def mapInsert {α β : Type} [DecidableEq α] : List (α × β) → α → β → List (α × β)
  | [], key, val => [(key, val)]
  | (k, v) :: rest, key, val =>
      if k = key then (key, val) :: rest else (k, v) :: mapInsert rest key val

namespace Writer

/-! ## Resource Registry (internal/writer resource dictionary source file) -/

/-- ResourceDictionary manages PDF page resources, mirroring the Go struct:
fonts, fontIDs, xobjects, extgstates, extgstateCache, extgstateObjMap.
Opacity keys (Go float64) are modelled as rationals; float equality in Go is
exact-match, as is rational equality here. -/
structure ResourceDictionary where
  fonts : List (String × Int)
  fontIDs : List (String × String)
  xobjects : List (String × Int)
  extgstates : List (String × Int)
  extgstateCache : List (Rat × String)
  extgstateObjMap : List (String × Int)
deriving DecidableEq

/-- NewResourceDictionary creates a new empty resource dictionary. -/
def NewResourceDictionary : ResourceDictionary :=
  ⟨[], [], [], [], [], []⟩

namespace ResourceDictionary

/-- AddFont adds a font resource named sequentially F1, F2, ... and returns
its resource name together with the updated dictionary. -/
def AddFont (rd : ResourceDictionary) (objNum : Int) : String × ResourceDictionary :=
  let name := "F" ++ toString (rd.fonts.length + 1)
  (name, { rd with fonts := mapInsert rd.fonts name objNum })

/-- AddFontWithID adds a font resource with an associated ID.  If a font with
the same fontID already exists, returns the existing resource name without
creating a duplicate entry. -/
def AddFontWithID (rd : ResourceDictionary) (objNum : Int) (fontID : String) :
    String × ResourceDictionary :=
  match mapLookup rd.fontIDs fontID with
  | some existingName => (existingName, rd)
  | none =>
      let name := "F" ++ toString (rd.fonts.length + 1)
      (name, { rd with
                 fonts := mapInsert rd.fonts name objNum,
                 fontIDs := mapInsert rd.fontIDs fontID name })

/-- SetFontObjNumByID sets the object number for a font identified by its ID;
returns false (and leaves the dictionary unchanged) if the ID is unknown. -/
def SetFontObjNumByID (rd : ResourceDictionary) (fontID : String) (objNum : Int) :
    Bool × ResourceDictionary :=
  match mapLookup rd.fontIDs fontID with
  | none => (false, rd)
  | some resName => (true, { rd with fonts := mapInsert rd.fonts resName objNum })

/-- GetFontResourceName returns the resource name for a font ID, or the empty
string (the Go zero value) if the font ID is not found. -/
def GetFontResourceName (rd : ResourceDictionary) (fontID : String) : String :=
  (mapLookup rd.fontIDs fontID).getD ""

/-- AddImage adds an image XObject resource named sequentially Im1, Im2, ... -/
def AddImage (rd : ResourceDictionary) (objNum : Int) : String × ResourceDictionary :=
  let name := "Im" ++ toString (rd.xobjects.length + 1)
  (name, { rd with xobjects := mapInsert rd.xobjects name objNum })

/-- AddExtGState adds a graphics state resource named sequentially GS1, GS2, ... -/
def AddExtGState (rd : ResourceDictionary) (objNum : Int) : String × ResourceDictionary :=
  let name := "GS" ++ toString (rd.extgstates.length + 1)
  (name, { rd with extgstates := mapInsert rd.extgstates name objNum })

/-- GetOrCreateExtGState returns an existing or creates a new ExtGState for the
given opacity.  The Bool result is needsCreation: true when a new ExtGState
was registered (with placeholder object number 0), false when cached. -/
def GetOrCreateExtGState (rd : ResourceDictionary) (opacity : Rat) :
    String × Bool × ResourceDictionary :=
  match mapLookup rd.extgstateCache opacity with
  | some name => (name, false, rd)
  | none =>
      let name := "GS" ++ toString (rd.extgstates.length + 1)
      (name, true,
        { rd with
            extgstateCache := mapInsert rd.extgstateCache opacity name,
            extgstates := mapInsert rd.extgstates name 0,
            extgstateObjMap := mapInsert rd.extgstateObjMap name 0 })

/-- SetExtGStateObjNum sets the object number for an ExtGState resource;
returns false if the name is not registered. -/
def SetExtGStateObjNum (rd : ResourceDictionary) (name : String) (objNum : Int) :
    Bool × ResourceDictionary :=
  match mapLookup rd.extgstates name with
  | none => (false, rd)
  | some _ => (true,
      { rd with
          extgstates := mapInsert rd.extgstates name objNum,
          extgstateObjMap := mapInsert rd.extgstateObjMap name objNum })

/-- GetExtGStateObjNum returns the object number for an ExtGState resource
(0 if not found, the Go map zero value). -/
def GetExtGStateObjNum (rd : ResourceDictionary) (name : String) : Int :=
  (mapLookup rd.extgstates name).getD 0

/-- HasResources returns true if any resources are registered. -/
def HasResources (rd : ResourceDictionary) : Bool :=
  rd.fonts.length > 0 || rd.xobjects.length > 0 || rd.extgstates.length > 0

/-- The writeSortedResources helper: emits the entries of one sub-dictionary
sorted by resource name (Go sort.Strings; byte order coincides with code
point order for the UTF-8 strings involved). -/
def writeSortedResources (resources : List (String × Int)) : String :=
  let names := List.insertionSort (· ≤ ·) (resources.map Prod.fst)
  String.join (names.map (fun n =>
    " /" ++ n ++ " " ++ toString ((mapLookup resources n).getD 0) ++ " 0 R"))

/-- The Font sub-dictionary block of Bytes (emitted only when non-empty). -/
def fontSection (rd : ResourceDictionary) : String :=
  if rd.fonts.length > 0 then " /Font <<" ++ writeSortedResources rd.fonts ++ " >>" else ""

/-- The XObject sub-dictionary block of Bytes (emitted only when non-empty). -/
def xobjectSection (rd : ResourceDictionary) : String :=
  if rd.xobjects.length > 0 then " /XObject <<" ++ writeSortedResources rd.xobjects ++ " >>" else ""

/-- The ExtGState sub-dictionary block of Bytes (emitted only when non-empty). -/
def extgstateSection (rd : ResourceDictionary) : String :=
  if rd.extgstates.length > 0 then " /ExtGState <<" ++ writeSortedResources rd.extgstates ++ " >>" else ""

/-- The ProcSet block of Bytes (emitted only when some resource exists). -/
def procSetSection (rd : ResourceDictionary) : String :=
  if rd.HasResources then " /ProcSet [/PDF /Text /ImageB /ImageC /ImageI]" else ""

/-- Bytes returns the resource dictionary as PDF text, assembled exactly as
the Go method: opening marker, the three conditional sub-dictionaries, the
conditional ProcSet, closing marker. -/
def Bytes (rd : ResourceDictionary) : String :=
  "<<" ++ rd.fontSection ++ rd.xobjectSection ++ rd.extgstateSection
       ++ rd.procSetSection ++ " >>"

end ResourceDictionary

end Writer

/-! ## Indirect objects, document model, and formatting helpers -/

/-- Modelled from the spec: the indirect-object model (not under the given
sources; only its construction and use sites are).  Identity is the pair of
number and generation; generation is always 0 for this engine. -/
structure IndirectObject where
  Number : Nat
  Generation : Nat
  body : List Byte
deriving DecidableEq

/-- NewIndirectObject is the pure constructor of an indirect object. -/
def NewIndirectObject (num gen : Nat) (body : List Byte) : IndirectObject :=
  ⟨num, gen, body⟩

/-- Modelled from the spec: serialization of an indirect object is the
envelope number, space, zero, space, obj, newline, body, newline, endobj,
newline (spec section 4.1). -/
def serializeObject (o : IndirectObject) : List Byte :=
  strB (toString o.Number ++ " 0 obj\n") ++ o.body ++ strB "\nendobj\n"

/-- The header prefix of a serialized object, the bytes an xref offset must
point at. -/
def objHeader (n : Nat) : List Byte := strB (toString n ++ " 0 obj")

/-- The assertion that the output carries the object header of number n
starting exactly at byte offset off. -/
def headerAt (out : List Byte) (off n : Nat) : Prop :=
  (out.drop off).take (objHeader n).length = objHeader n

/-- Decidable check that the byte segment seg occurs somewhere in l
(bytes.Contains). -/
def containsSeg (l seg : List Byte) : Bool :=
  (List.range (l.length + 1)).any (fun i => decide ((l.drop i).take seg.length = seg))

/-- Zero-padded decimal rendering of a natural number (Go %0<width>d). -/
def pad0 (width : Nat) (n : Nat) : String :=
  let s := toString n
  String.mk (List.replicate (width - s.length) (Char.ofNat 48)) ++ s

/-- Zero-padded decimal rendering of an integer; as in Go, the minus sign
counts toward the total width. -/
def padInt (width : Nat) (n : Int) : String :=
  if n < 0 then "-" ++ pad0 (width - 1) n.natAbs else pad0 width n.natAbs

/-- Fixed two-decimal rendering of a rational (Go %.2f on float64; the exact
binary-float rounding mode is immaterial to every claim, so the rational is
rounded to the nearest hundredth). -/
def fmt2 (q : Rat) : String :=
  let n : Int := (200 * q.num + q.den) / (2 * (q.den : Int))
  let sign := if n < 0 then "-" else ""
  sign ++ toString (n.natAbs / 100) ++ "." ++ pad0 2 (n.natAbs % 100)

/-- Modelled from the spec: a timestamp with timezone offset (seconds east of
UTC), the fields the document-model collaborator exposes (spec section 6). -/
structure TimeModel where
  year : Int
  month : Int
  day : Int
  hour : Int
  minute : Int
  second : Int
  zoneOffset : Int
deriving DecidableEq

/-- The formatPDFDate function of the writer source: D:YYYYMMDDHHmmSS
followed by the signed timezone offset.  Go integer division truncates
toward zero, hence tdiv and tmod. -/
def formatPDFDate (t : TimeModel) : String :=
  let offset := t.zoneOffset
  let offsetHours0 := Int.tdiv offset 3600
  let offsetMinutes0 := Int.tdiv (Int.tmod offset 3600) 60
  let sign := if offset < 0 then "-" else "+"
  let offsetHours := if offset < 0 then -offsetHours0 else offsetHours0
  let offsetMinutes := if offset < 0 then -offsetMinutes0 else offsetMinutes0
  "D:" ++ padInt 4 t.year ++ padInt 2 t.month ++ padInt 2 t.day ++
    padInt 2 t.hour ++ padInt 2 t.minute ++ padInt 2 t.second ++
    sign ++ padInt 2 offsetHours ++ "\x27" ++ padInt 2 offsetMinutes ++ "\x27"

/-- A rectangle given by its lower-left and upper-right corners. -/
structure RectModel where
  llx : Rat
  lly : Rat
  urx : Rat
  ury : Rat
deriving DecidableEq

/-- Modelled from the spec: the page data the writer reads from the
document-model collaborator: MediaBox, optional CropBox, rotation, and the
annotation count (spec section 6). -/
structure PageModel where
  mediaBox : RectModel
  cropBox : Option RectModel
  rotation : Int
  annotationCount : Nat
deriving DecidableEq

/-- Modelled from the spec: the document-model collaborator: version string,
pages, and the optional metadata strings with timestamps (spec section 6). -/
structure Document where
  version : String
  pages : List PageModel
  title : String
  author : String
  subject : String
  creator : String
  producer : String
  creationDate : TimeModel
  modDate : TimeModel

/-- Modelled from the spec: document validation fails if and only if the
document has zero pages (spec section 6); the exact message is immaterial. -/
def docValidate (doc : Document) : Option String :=
  if doc.pages.isEmpty then some "document has no pages" else none

namespace Writer

/-- The escapePDFString function of the writer source (currently the
identity, per its TODO). -/
def escapePDFString (s : String) : String := s

/-- The createInfo method: an Info dictionary with the non-empty metadata
fields and both timestamps. -/
def createInfo (objNum : Nat) (doc : Document) : IndirectObject :=
  let info := "<<"
    ++ (if doc.title != "" then " /Title (" ++ escapePDFString doc.title ++ ")" else "")
    ++ (if doc.author != "" then " /Author (" ++ escapePDFString doc.author ++ ")" else "")
    ++ (if doc.subject != "" then " /Subject (" ++ escapePDFString doc.subject ++ ")" else "")
    ++ (if doc.creator != "" then " /Creator (" ++ escapePDFString doc.creator ++ ")" else "")
    ++ (if doc.producer != "" then " /Producer (" ++ escapePDFString doc.producer ++ ")" else "")
    ++ " /CreationDate (" ++ formatPDFDate doc.creationDate ++ ")"
    ++ " /ModDate (" ++ formatPDFDate doc.modDate ++ ")"
    ++ " >>"
  NewIndirectObject objNum 0 (strB info)

/-- The MediaBox, CropBox and Rotate prelude shared by every page dictionary
(createPageWithContent and createPageWithAllContent emit it identically). -/
def pageDictPrelude (page : PageModel) (parentRef : Nat) : String :=
  "<<" ++ " /Type /Page" ++ " /Parent " ++ toString parentRef ++ " 0 R"
    ++ " /MediaBox [" ++ fmt2 page.mediaBox.llx ++ " " ++ fmt2 page.mediaBox.lly ++ " "
        ++ fmt2 page.mediaBox.urx ++ " " ++ fmt2 page.mediaBox.ury ++ "]"
    ++ (match page.cropBox with
        | some cb => " /CropBox [" ++ fmt2 cb.llx ++ " " ++ fmt2 cb.lly ++ " "
            ++ fmt2 cb.urx ++ " " ++ fmt2 cb.ury ++ "]"
        | none => "")
    ++ (if page.rotation != 0 then " /Rotate " ++ toString page.rotation else "")

/-- The page dictionary produced by createPageWithContent for a page without
content operations (the branch taken for every page of the plain Write path,
which passes an empty content map): empty resources, no content stream. -/
def pageDictNoContent (page : PageModel) (parentRef : Nat) : List Byte :=
  strB (pageDictPrelude page parentRef ++ " /Resources << >>" ++ " >>")

/-- The createPagesRoot method: the flat Pages tree root dictionary. -/
def createPagesRootObj (objNum : Nat) (pageRefs : List Nat) (count : Nat) : IndirectObject :=
  NewIndirectObject objNum 0 (strB ("<<" ++ " /Type /Pages" ++ " /Kids ["
    ++ String.intercalate " " (pageRefs.map (fun r => toString r ++ " 0 R"))
    ++ "]" ++ " /Count " ++ toString count ++ " >>"))

/-- The per-page loop of createPageTreeWithContent for the plain Write path:
allocates one number per page in document order and builds the content-less
page dictionaries. -/
def buildPages (pages : List PageModel) (parentRef : Nat) (n : Nat) :
    List IndirectObject × List Nat × Nat :=
  match pages with
  | [] => ([], [], n)
  | pg :: rest =>
      let pageRef := n
      let r := buildPages rest parentRef (n + 1)
      (NewIndirectObject pageRef 0 (pageDictNoContent pg parentRef) :: r.1,
       pageRef :: r.2.1, r.2.2)

/-- The createPageTree method (which delegates to createPageTreeWithContent
with an empty content map): allocates the Pages-root number first, then one
number per page, and prepends the root object. -/
def createPageTree (doc : Document) (n0 : Nat) : List IndirectObject × Nat × Nat :=
  let pagesRootRef := n0
  let r := buildPages doc.pages pagesRootRef (n0 + 1)
  (createPagesRootObj pagesRootRef r.2.1 doc.pages.length :: r.1,
   pagesRootRef, r.2.2)

/-- Modelled from the spec: the createCatalog method (not under the given
sources): a Catalog dictionary referencing the Pages root, allocated from
the same counter (spec section 4.4 step 5); optional top-level attributes
are empty for the modelled documents. -/
def createCatalogObj (pagesRootRef : Nat) (n : Nat) : IndirectObject :=
  NewIndirectObject n 0
    (strB ("<< /Type /Catalog /Pages " ++ toString pagesRootRef ++ " 0 R >>"))

/-! ## PdfWriter state and the serializer pipeline -/

/-- PdfWriter state: the sink is a file (isFile true, offset by seek) or an
io.Writer wrapped in the counting writer (isFile false, offset by the byte
counter cn).  The bufio buffer holds bytes not yet flushed to the sink.  The
cn field mirrors bytes flushed in either mode but is only read in counter
mode, exactly as the Go countingWriter is only consulted in io.Writer mode. -/
structure PdfW where
  isFile : Bool
  sink : List Byte
  cn : Nat
  buffer : List Byte
  objects : List IndirectObject
  offsets : List (Nat × Nat)
  nextObjNum : Nat
  closed : Bool

/-- NewPdfWriter (file mode) on a freshly created, truncated file, and
NewPdfWriterFromWriter (counter mode) on an empty buffer. -/
def freshWriter (isFile : Bool) : PdfW :=
  { isFile := isFile, sink := [], cn := 0, buffer := [],
    objects := [], offsets := [], nextObjNum := 1, closed := false }

/-- Buffered write: bytes go to the bufio buffer.  The bufio auto-flush on a
full buffer is not modelled: it moves bytes to the sink earlier but changes
neither the final sink contents nor any offset measured by getCurrentOffset,
which flushes first. -/
def emit (w : PdfW) (bs : List Byte) : PdfW := { w with buffer := w.buffer ++ bs }

/-- Flush the bufio buffer into the sink; the counting writer observes the
flushed bytes. -/
def flushW (w : PdfW) : PdfW :=
  { w with sink := w.sink ++ w.buffer, cn := w.cn + w.buffer.length, buffer := [] }

/-- The getCurrentOffset method: flush buffered data first, then report the
file seek position (file mode) or the counting-writer total (counter mode). -/
def getCurrentOffset (w : PdfW) : Nat × PdfW :=
  let w1 := flushW w
  (if w.isFile then w1.sink.length else w1.cn, w1)

/-- Every byte handed to the writer so far, flushed or still buffered. -/
def totalOut (w : PdfW) : List Byte := w.sink ++ w.buffer

/-- The fixed six-byte binary marker emitted after the version line. -/
def binaryMarker : List Byte := [0x25, 0xE2, 0xE3, 0xCF, 0xD3, 0x0A]

/-- The writeHeader method: version line, then the binary marker. -/
def writeHeaderM (w : PdfW) (version : String) : PdfW :=
  emit (emit w (strB ("%PDF-" ++ version ++ "\n"))) binaryMarker

/-- The object-writing loop of Write: before each object, flush and record
the current absolute offset under the object's number, then serialize it. -/
def writeObjects (w : PdfW) : List IndirectObject → PdfW
  | [] => w
  | o :: rest =>
      let g := getCurrentOffset w
      let w2 := { g.2 with offsets := mapInsert g.2.offsets o.Number g.1 }
      writeObjects (emit w2 (serializeObject o)) rest

/-- One xref table entry line for an in-use object. -/
def xrefEntryLine (off : Nat) : String := pad0 10 off ++ " " ++ pad0 5 0 ++ " n \n"

/-- The entry loop of writeXRef over object numbers i, i+1, ... (count many):
a missing offset is a fatal integrity error, reported with the partially
written buffer kept, as in the Go early return. -/
def writeXRefEntries (w : PdfW) : Nat → Nat → Option String × PdfW
  | _, 0 => (none, w)
  | i, Nat.succ k =>
      match mapLookup w.offsets i with
      | none => (some ("missing offset for object " ++ toString i), w)
      | some off => writeXRefEntries (emit w (strB (xrefEntryLine off))) (i + 1) k

/-- The writeXRef method: record the xref start offset, emit the header, the
subsection line for 0 .. nextObjNum-1, the free entry for object 0, and one
entry per allocated object number. -/
def writeXRef (w : PdfW) : Except String Nat × PdfW :=
  let g := getCurrentOffset w
  let w1 := emit g.2 (strB "xref\n")
  let w2 := emit w1 (strB ("0 " ++ toString w1.nextObjNum ++ "\n"))
  let w3 := emit w2 (strB "0000000000 65535 f \n")
  let r := writeXRefEntries w3 1 (w3.nextObjNum - 1)
  match r.1 with
  | some e => (Except.error e, r.2)
  | none => (Except.ok g.1, r.2)

/-- Metadata presence test of writeTrailer: any of title, author, subject. -/
def metadataPresent (doc : Document) : Bool :=
  doc.title != "" || doc.author != "" || doc.subject != ""

/-- The writeTrailer method, including its Info-object handling exactly as
in the source: when metadata is present it allocates the Info number only
here (after the xref was already written), records the xref offset as the
Info offset, appends the Info object to the object list, and never writes
the Info object bytes (the source marks this with a TODO). -/
def writeTrailer (catalogRef size xrefOffset : Nat) (doc : Document) (w : PdfW) : PdfW :=
  let w := emit w (strB "trailer\n")
  let dict := "<<" ++ " /Size " ++ toString size ++ " /Root " ++ toString catalogRef ++ " 0 R"
  let dw :=
    if metadataPresent doc then
      let infoRef := w.nextObjNum
      let w := { w with nextObjNum := w.nextObjNum + 1 }
      let infoObj := createInfo infoRef doc
      let w := { w with objects := w.objects ++ [infoObj],
                        offsets := mapInsert w.offsets infoRef xrefOffset }
      (dict ++ " /Info " ++ toString infoRef ++ " 0 R", w)
    else (dict, w)
  let w := emit dw.2 (strB (dw.1 ++ " >>"))
  let w := emit w (strB "\n")
  let w := emit w (strB "startxref\n")
  let w := emit w (strB (toString xrefOffset ++ "\n"))
  emit w (strB "%%EOF\n")

/-- The header, page-tree and catalog steps of Write: the header bytes are
buffered, the page tree is created, the catalog is allocated next and
prepended; returns the assembled state and the catalog object number. -/
def assembleDocument (doc : Document) (w : PdfW) : PdfW × Nat :=
  let w1 := writeHeaderM w doc.version
  let tr := createPageTree doc w1.nextObjNum
  let w2 := { w1 with nextObjNum := tr.2.2, objects := w1.objects ++ tr.1 }
  let catalogObj := createCatalogObj tr.2.1 w2.nextObjNum
  let w3 := { w2 with nextObjNum := w2.nextObjNum + 1, objects := catalogObj :: w2.objects }
  (w3, catalogObj.Number)

/-- The tail shared by every Write variant once the object list stands:
object loop with offset recording, xref, trailer, final flush. -/
def writeBody (doc : Document) (catalogRef : Nat) (w : PdfW) : Except String Unit × PdfW :=
  let w1 := writeObjects w w.objects
  let xr := writeXRef w1
  match xr.1 with
  | Except.error e => (Except.error ("failed to write xref: " ++ e), xr.2)
  | Except.ok xrefOffset =>
      (Except.ok (), flushW (writeTrailer catalogRef xr.2.nextObjNum xrefOffset doc xr.2))

/-- The Write method for a plain document: closed check, validation, state
reset, header, page tree, catalog prepended, object loop, xref, trailer,
final flush. -/
def WriteM (doc : Document) (w : PdfW) : Except String Unit × PdfW :=
  if w.closed then (Except.error "writer is closed", w)
  else
    match docValidate doc with
    | some e => (Except.error ("document validation failed: " ++ e), w)
    | none =>
        let a := assembleDocument doc { w with objects := [], offsets := [], nextObjNum := 1 }
        writeBody doc a.2 a.1

/-- The Close method: the first call flushes and releases the sink; calling
Close on an already-closed writer returns success without any change. -/
def CloseM (w : PdfW) : Except String Unit × PdfW :=
  if w.closed then (Except.ok (), w)
  else (Except.ok (), flushW { w with closed := true })

/-! ## Page tree with content (pages.go) -/

/-- ImageData carries the decoded image record supplied by the image
subsystem: dimensions, color space, bit depth, format tag, filtered pixel
data, and the optional raw alpha-mask bytes. -/
structure ImageData where
  Width : Int
  Height : Int
  ColorSpace : String
  BitsPerComponent : Int
  Format : String
  Data : List Byte
  AlphaMask : List Byte
deriving DecidableEq

/-- GraphicsOp mirrors the writer-package graphics operation record.  Only
the fields the modelled functions inspect are represented: the numeric type
tag (3 is image, 22 is TextBlock; the Go field is named Type, which is a
Lean keyword, hence OpType here) and the optional image payload; the other
payload fields flow only into the collaborator oracles. -/
structure GraphicsOp where
  OpType : Int
  Image : Option ImageData
deriving DecidableEq

/-- TextOp is opaque to the modelled functions: it is only counted and
passed to collaborator oracles. -/
structure TextOp where
  tag : Nat
deriving DecidableEq

/-- The hasTextBlockOps helper: any operation with Type 22. -/
def hasTextBlockOps (graphicsOps : List GraphicsOp) : Bool :=
  graphicsOps.any (fun g => g.OpType == 22)

/-- Modelled from the spec: setImageObjectNumber binds an image resource
name to its object number after the XObjects are created (spec section 4.2;
the method body is not under the given sources). -/
def ResourceDictionary.SetImageObjNum (rd : ResourceDictionary) (name : String)
    (objNum : Int) : ResourceDictionary :=
  { rd with xobjects := mapInsert rd.xobjects name objNum }

/-- The createImageXObject method: the image XObject stream with the format
filter and, when a soft mask exists (smaskObjNum positive), the SMask
reference. -/
def createImageXObject (objNum : Nat) (img : ImageData) (smaskObjNum : Nat) : IndirectObject :=
  let dict := "<< /Type /XObject /Subtype /Image"
    ++ " /Width " ++ toString img.Width ++ " /Height " ++ toString img.Height
    ++ " /ColorSpace /" ++ img.ColorSpace
    ++ " /BitsPerComponent " ++ toString img.BitsPerComponent
    ++ (if img.Format == "jpeg" then " /Filter /DCTDecode"
        else if img.Format == "png" then " /Filter /FlateDecode" else "")
    ++ (if smaskObjNum > 0 then " /SMask " ++ toString smaskObjNum ++ " 0 R" else "")
    ++ " /Length " ++ toString img.Data.length ++ " >>\n"
  NewIndirectObject objNum 0 (strB (dict ++ "stream\n") ++ img.Data ++ strB "\nendstream")

/-- The createSMaskObject method: the grayscale 8-bit FlateDecode soft-mask
stream built from the alpha-mask bytes. -/
def createSMaskObject (objNum : Nat) (img : ImageData) : IndirectObject :=
  NewIndirectObject objNum 0 (strB ("<< /Type /XObject /Subtype /Image"
    ++ " /Width " ++ toString img.Width ++ " /Height " ++ toString img.Height
    ++ " /ColorSpace /DeviceGray" ++ " /BitsPerComponent 8" ++ " /Filter /FlateDecode"
    ++ " /Length " ++ toString img.AlphaMask.length ++ " >>\n"
    ++ "stream\n") ++ img.AlphaMask ++ strB "\nendstream")

/-- The image-collection pass of createAndAssignImageXObjects: operations
with Type 3 and a non-nil image, in order. -/
def imagesOf (gops : List GraphicsOp) : List ImageData :=
  gops.filterMap (fun g => if g.OpType == 3 then g.Image else none)

/-- The per-image loop of createAndAssignImageXObjects: allocate the image
number, then (for a non-empty alpha mask) the soft-mask number, append the
soft-mask object then the image object, and bind the positional name. -/
def imageLoop (images : List ImageData) (i : Nat) (rd : ResourceDictionary) (n : Nat) :
    List IndirectObject × ResourceDictionary × Nat :=
  match images with
  | [] => ([], rd, n)
  | img :: rest =>
      let imageObjNum := n
      let n1 := n + 1
      let step :=
        if img.AlphaMask.length > 0 then (n1, [createSMaskObject n1 img], n1 + 1)
        else (0, ([] : List IndirectObject), n1)
      let imageObj := createImageXObject imageObjNum img step.1
      let rd1 := rd.SetImageObjNum ("Im" ++ toString (i + 1)) (Int.ofNat imageObjNum)
      let rec1 := imageLoop rest (i + 1) rd1 step.2.2
      (step.2.1 ++ [imageObj] ++ rec1.1, rec1.2.1, rec1.2.2)

/-- The createAndAssignImageXObjects method.  The Go function always returns
a nil error (its only return statement is objects, nil), so the error
constructor below is unreachable; the Except envelope mirrors the Go
signature for the caller's dead error branch. -/
def createAndAssignImageXObjects (gops : List GraphicsOp) (rd : ResourceDictionary) (n : Nat) :
    Except String (List IndirectObject × ResourceDictionary × Nat) :=
  Except.ok (imageLoop (imagesOf gops) 0 rd n)

/-! ## createPageWithAllContent and its collaborator oracles -/

/-- FontDef is opaque: standard-14 font definitions are only handed to the
font-writing oracle. -/
structure FontDef where
  tag : Nat

/-- EmbeddedFont is opaque: embedded fonts are only handed to the
font-writing oracle (its subset-build side effect lives in the font
subsystem and does not touch writer state). -/
structure EmbeddedFont where
  tag : Nat

/-- FontCollection mirrors the collected fonts of a page.  Go iterates both
as maps in unspecified order; the model fixes an iteration order by using
lists. -/
structure FontCollection where
  Standard14 : List (String × FontDef)
  Embedded : List (String × EmbeddedFont)

/-- PageOracles bundles the collaborator subsystems used by
createPageWithAllContent, none of which are under the given sources: font
collection, content-stream generation, font-object writing (standard and
embedded), content-stream object creation, and annotation writing.  The
allocating oracles take the current next object number and always return
the advanced counter, also on failure, because the Go code hands them the
live allocator callback. -/
structure PageOracles where
  createFontCollectionWithGraphics :
    List TextOp → List GraphicsOp → Except String FontCollection
  generateContentStreamWithGraphics :
    List TextOp → List GraphicsOp → Except String (List Byte × ResourceDictionary)
  writeFontObject : FontDef → Nat → Except String (List Byte)
  writeEmbeddedFont : EmbeddedFont → Nat → Nat × Except String (List IndirectObject × Nat)
  createContentStreamObject : Nat → List Byte → IndirectObject
  writeAllAnnotations : PageModel → Nat → Nat × Except String (List IndirectObject × List Nat)

/-- The Go bytes.Index of a pattern, minus one when absent. -/
def goIndex (l pat : List Byte) : Int :=
  match (List.range (l.length + 1)).find? (fun i => (l.drop i).take pat.length == pat) with
  | some i => Int.ofNat i
  | none => -1

/-- The Go bytes.LastIndex of a pattern, minus one when absent. -/
def goLastIndex (l pat : List Byte) : Int :=
  match (List.range (l.length + 1)).reverse.find? (fun i => (l.drop i).take pat.length == pat) with
  | some i => Int.ofNat i
  | none => -1

/-- The dictionary-extraction step applied to a written font buffer: slice
from the first dictionary opener to past the last closer, skipping the font
when the bounds test fails. -/
def fontObjFromBuf (fontObjNum : Nat) (fontBytes : List Byte) : Option IndirectObject :=
  let dictStart := goIndex fontBytes (strB "<<")
  let dictEnd := goLastIndex fontBytes (strB ">>") + 2
  if dictStart ≥ 0 ∧ dictEnd > dictStart then
    some (NewIndirectObject fontObjNum 0
      ((fontBytes.drop dictStart.toNat).take (dictEnd - dictStart).toNat))
  else none

/-- The standard-14 font loop of createPageWithAllContent step 3: allocate,
write through the oracle, extract the dictionary, bind by font ID; failures
skip the font (continue) with the allocated number consumed. -/
def std14Loop (oracles : PageOracles) (fonts : List (String × FontDef))
    (rd : ResourceDictionary) (n : Nat) :
    List IndirectObject × ResourceDictionary × Nat :=
  match fonts with
  | [] => ([], rd, n)
  | (fontName, fontDef) :: rest =>
      let fontObjNum := n
      let n1 := n + 1
      match oracles.writeFontObject fontDef fontObjNum with
      | Except.error _ => std14Loop oracles rest rd n1
      | Except.ok fontBytes =>
          match fontObjFromBuf fontObjNum fontBytes with
          | none => std14Loop oracles rest rd n1
          | some obj =>
              let rd1 := (rd.SetFontObjNumByID ("std:" ++ fontName) (Int.ofNat fontObjNum)).2
              let rec1 := std14Loop oracles rest rd1 n1
              (obj :: rec1.1, rec1.2.1, rec1.2.2)

/-- The embedded-font loop of createPageWithAllContent step 3: the font
writer allocates through the callback; on failure the loop continues with
the advanced counter. -/
def embeddedLoop (oracles : PageOracles) (fonts : List (String × EmbeddedFont))
    (rd : ResourceDictionary) (n : Nat) :
    List IndirectObject × ResourceDictionary × Nat :=
  match fonts with
  | [] => ([], rd, n)
  | (fontID, embFont) :: rest =>
      match oracles.writeEmbeddedFont embFont n with
      | (n1, Except.error _) => embeddedLoop oracles rest rd n1
      | (n1, Except.ok (fontObjects, fontObjNum)) =>
          let rd1 := (rd.SetFontObjNumByID ("custom:" ++ fontID) (Int.ofNat fontObjNum)).2
          let rec1 := embeddedLoop oracles rest rd1 n1
          (fontObjects ++ rec1.1, rec1.2.1, rec1.2.2)

/-- The annotation block at the tail of createPageWithAllContent: runs on
the non-degraded paths when the page declares annotations; a failing
annotation writer changes nothing except the consumed numbers. -/
def annotBlock (oracles : PageOracles) (page : PageModel) (dict : String)
    (auxObjs : List IndirectObject) (n : Nat) :
    String × List IndirectObject × Nat :=
  if page.annotationCount > 0 then
    match oracles.writeAllAnnotations page n with
    | (n1, Except.error _) => (dict, auxObjs, n1)
    | (n1, Except.ok (annotObjs, annotRefs)) =>
        if annotRefs.length > 0 then
          (dict ++ " /Annots ["
             ++ String.intercalate " " (annotRefs.map (fun r => toString r ++ " 0 R"))
             ++ "]",
           auxObjs ++ annotObjs, n1)
        else (dict, auxObjs, n1)
  else (dict, auxObjs, n)

/-- The degraded page object emitted by the early-return failure paths of
createPageWithAllContent: the page prelude, an empty Resources dictionary,
no content reference. -/
def degradedPageObj (page : PageModel) (objNum parentRef : Nat) : IndirectObject :=
  NewIndirectObject objNum 0
    (strB (pageDictPrelude page parentRef ++ " /Resources << >>" ++ " >>"))

/-- The createPageWithAllContent method.  Returns the page object, the
optional content-stream object, the auxiliary objects (fonts, images, soft
masks, annotations), and the advanced object counter.  The subset Build
calls of step 1 mutate only the font subsystem (their errors are discarded)
and are absorbed by the oracles. -/
def createPageWithAllContent (oracles : PageOracles) (page : PageModel)
    (objNum parentRef : Nat) (textOps : List TextOp) (graphicsOps : List GraphicsOp)
    (n : Nat) : IndirectObject × Option IndirectObject × List IndirectObject × Nat :=
  if textOps.length > 0 || graphicsOps.length > 0 then
    let hasTextContent := textOps.length > 0 || hasTextBlockOps graphicsOps
    let step1 : Except String (Option FontCollection) :=
      if hasTextContent then
        (oracles.createFontCollectionWithGraphics textOps graphicsOps).map some
      else Except.ok none
    match step1 with
    | Except.error _ => (degradedPageObj page objNum parentRef, none, [], n)
    | Except.ok fc? =>
        match oracles.generateContentStreamWithGraphics textOps graphicsOps with
        | Except.error _ => (degradedPageObj page objNum parentRef, none, [], n)
        | Except.ok (content, resources0) =>
            let s3 :=
              match fc? with
              | none => (([] : List IndirectObject), resources0, n)
              | some fc =>
                  let a := std14Loop oracles fc.Standard14 resources0 n
                  let b := embeddedLoop oracles fc.Embedded a.2.1 a.2.2
                  (a.1 ++ b.1, b.2.1, b.2.2)
            let s35 :=
              match createAndAssignImageXObjects graphicsOps s3.2.1 s3.2.2 with
              | Except.error _ => s3
              | Except.ok (imageObjs, rd1, n1) => (s3.1 ++ imageObjs, rd1, n1)
            let dict1 := pageDictPrelude page parentRef ++ " /Resources " ++ s35.2.1.Bytes
            let contentObjNum := s35.2.2
            let n2 := contentObjNum + 1
            let contentObj := oracles.createContentStreamObject contentObjNum content
            let dict2 := dict1 ++ " /Contents " ++ toString contentObjNum ++ " 0 R"
            let fin := annotBlock oracles page dict2 s35.1 n2
            (NewIndirectObject objNum 0 (strB (fin.1 ++ " >>")), some contentObj,
             fin.2.1, fin.2.2)
  else
    let dict1 := pageDictPrelude page parentRef ++ " /Resources << >>"
    let fin := annotBlock oracles page dict1 [] n
    (NewIndirectObject objNum 0 (strB (fin.1 ++ " >>")), none, fin.2.1, fin.2.2)

/-- The per-page loop of createPageTreeWithAllContent: the per-page content
maps are total functions from page index (a missing Go map key is the empty
slice). -/
def buildPagesAll (oracles : PageOracles) (pages : List PageModel) (parentRef : Nat)
    (textContents : Nat → List TextOp) (graphicsContents : Nat → List GraphicsOp)
    (i : Nat) (n : Nat) : List IndirectObject × List Nat × Nat :=
  match pages with
  | [] => ([], [], n)
  | pg :: rest =>
      let pageRef := n
      let r := createPageWithAllContent oracles pg pageRef parentRef
                 (textContents i) (graphicsContents i) (n + 1)
      let contentObjs := match r.2.1 with
        | some c => [c]
        | none => []
      let rec1 := buildPagesAll oracles rest parentRef textContents graphicsContents
                    (i + 1) r.2.2.2
      (r.1 :: (contentObjs ++ r.2.2.1) ++ rec1.1, pageRef :: rec1.2.1, rec1.2.2)

/-- The createPageTreeWithAllContent method: Pages-root number first, then
the per-page loop, then the root object prepended. -/
def createPageTreeWithAllContent (oracles : PageOracles) (doc : Document)
    (textContents : Nat → List TextOp) (graphicsContents : Nat → List GraphicsOp)
    (n0 : Nat) : List IndirectObject × Nat × Nat :=
  let pagesRootRef := n0
  let r := buildPagesAll oracles doc.pages pagesRootRef textContents graphicsContents 0 (n0 + 1)
  (createPagesRootObj pagesRootRef r.2.1 doc.pages.length :: r.1, pagesRootRef, r.2.2)

/-- The header, page-tree and catalog steps of WriteWithAllContent. -/
def assembleDocumentAll (oracles : PageOracles) (doc : Document)
    (textContents : Nat → List TextOp) (graphicsContents : Nat → List GraphicsOp)
    (w : PdfW) : PdfW × Nat :=
  let w1 := writeHeaderM w doc.version
  let tr := createPageTreeWithAllContent oracles doc textContents graphicsContents w1.nextObjNum
  let w2 := { w1 with nextObjNum := tr.2.2, objects := w1.objects ++ tr.1 }
  let catalogObj := createCatalogObj tr.2.1 w2.nextObjNum
  let w3 := { w2 with nextObjNum := w2.nextObjNum + 1, objects := catalogObj :: w2.objects }
  (w3, catalogObj.Number)

/-- The WriteWithAllContent method: identical pipeline to Write, with the
all-content page tree builder. -/
def WriteWithAllContentM (oracles : PageOracles) (doc : Document)
    (textContents : Nat → List TextOp) (graphicsContents : Nat → List GraphicsOp)
    (w : PdfW) : Except String Unit × PdfW :=
  if w.closed then (Except.error "writer is closed", w)
  else
    match docValidate doc with
    | some e => (Except.error ("document validation failed: " ++ e), w)
    | none =>
        let a := assembleDocumentAll oracles doc textContents graphicsContents
          { w with objects := [], offsets := [], nextObjNum := 1 }
        writeBody doc a.2 a.1

/-- Proof helper: the same writer state with the sink-mode flag replaced;
used to compare a file-mode run with a counter-mode run. -/
def withMode (w : PdfW) (b : Bool) : PdfW := { w with isFile := b }

/-! ## Concrete sample inputs used by witnesses and counterexamples -/

/-- A concrete 2x2 PNG image record with a non-empty alpha mask. -/
def sampleImage : ImageData :=
  ⟨2, 2, "DeviceRGB", 8, "png", [1, 2, 3], [9, 9, 9, 9]⟩

/-- A concrete image-drawing graphics operation carrying sampleImage. -/
def sampleImageOp : GraphicsOp := ⟨3, some sampleImage⟩

/-- A concrete US-Letter page without crop box, rotation or annotations. -/
def samplePage : PageModel := ⟨⟨0, 0, 612, 792⟩, none, 0, 0⟩

/-- A concrete timestamp (2025-01-27 12:30:45 at UTC+3). -/
def sampleTime : TimeModel := ⟨2025, 1, 27, 12, 30, 45, 10800⟩

/-- A concrete valid one-page document without metadata. -/
def sampleDoc : Document :=
  ⟨"1.7", [samplePage], "", "", "", "", "", sampleTime, sampleTime⟩

/-- A concrete valid one-page document with a non-empty title. -/
def sampleDocMeta : Document :=
  ⟨"1.7", [samplePage], "T", "", "", "", "", sampleTime, sampleTime⟩

/-- A concrete oracle bundle whose content-stream generator fails, for
exercising the degraded-page path. -/
def sampleFailingOracles : PageOracles :=
  { createFontCollectionWithGraphics := fun _ _ => Except.error "font collection failed"
    generateContentStreamWithGraphics := fun _ _ => Except.error "content generation failed"
    writeFontObject := fun _ _ => Except.error "font write failed"
    writeEmbeddedFont := fun _ n => (n, Except.error "embedded font failed")
    createContentStreamObject := fun n _ => NewIndirectObject n 0 []
    writeAllAnnotations := fun _ n => (n, Except.error "annotations failed") }

end Writer

namespace Creator

/-! ## Page drawing API (creator/polygon.go, creator/ellipse.go, bezier source file)

Geometry coordinates (Go float64) are modelled as rationals.  The validation
routines validateColor and Gradient.Validate live outside the given sources,
so they are passed in as arbitrary oracle functions: every theorem below is
proved for all possible behaviours of those collaborators.  The gradient
payload type is likewise an arbitrary type parameter G. -/

/-- Point is a 2D point in PDF coordinate space. -/
structure Point where
  X : Rat
  Y : Rat
deriving DecidableEq

/-- Color is an RGB color with components in the 0.0 to 1.0 range. -/
structure Color where
  R : Rat
  G : Rat
  B : Rat
deriving DecidableEq

/-- ColorCMYK is a CMYK color. -/
structure ColorCMYK where
  C : Rat
  M : Rat
  Y : Rat
  K : Rat
deriving DecidableEq

/-- PolygonOptions configures polygon drawing (all fields of the Go struct). -/
structure PolygonOptions (G : Type) where
  StrokeColor : Option Color
  StrokeColorCMYK : Option ColorCMYK
  StrokeWidth : Rat
  FillColor : Option Color
  FillColorCMYK : Option ColorCMYK
  FillGradient : Option G
  Dashed : Bool
  DashArray : List Rat
  DashPhase : Rat
  Opacity : Option Rat

/-- EllipseOptions configures ellipse drawing (all fields of the Go struct). -/
structure EllipseOptions (G : Type) where
  StrokeColor : Option Color
  StrokeColorCMYK : Option ColorCMYK
  StrokeWidth : Rat
  FillColor : Option Color
  FillColorCMYK : Option ColorCMYK
  FillGradient : Option G
  Opacity : Option Rat

/-- BezierSegment is a cubic Bezier curve segment. -/
structure BezierSegment where
  Start : Point
  C1 : Point
  C2 : Point
  End : Point
deriving DecidableEq

/-- BezierOptions configures Bezier curve drawing (all fields of the Go struct). -/
structure BezierOptions (G : Type) where
  Color : GxPdf.Creator.Color
  ColorCMYK : Option GxPdf.Creator.ColorCMYK
  Width : Rat
  Dashed : Bool
  DashArray : List Rat
  DashPhase : Rat
  Closed : Bool
  FillColor : Option GxPdf.Creator.Color
  FillGradient : Option G
  Opacity : Option Rat

/-- GraphicsOperation mirrors the stored operation record.  Only the
constructors produced by the three modelled drawing calls are spelled out;
the remaining operation kinds (lines, rectangles, circles, text, images,
watermarks, ...) are irrelevant to the claims and collapsed into otherOp. -/
inductive GraphicsOperation (G : Type) where
  | polygonOp (vertices : List Point) (opts : PolygonOptions G)
  | ellipseOp (cx cy rx ry : Rat) (opts : EllipseOptions G)
  | bezierOp (segments : List BezierSegment) (opts : BezierOptions G)
  | otherOp

/-- Page carries the stored graphics-operation list; the other fields of the
creator Page are not touched by the modelled functions. -/
structure Page (G : Type) where
  graphicsOps : List (GraphicsOperation G)

/-- The abs helper of the bezier source file. -/
def ratAbs (x : Rat) : Rat := if x < 0 then -x else x

/-- The validatePolygonOptions function, sequential early-return checks
translated into an Option-error chain (first error wins). -/
def validatePolygonOptions {G : Type} (validateColor : Color → Option String)
    (gradientValidate : G → Option String) (opts : PolygonOptions G) : Option String :=
  (match opts.StrokeColor with
   | some c => (validateColor c).map (fun e => "stroke " ++ e)
   | none => none) <|>
  (match opts.FillColor with
   | some c => (validateColor c).map (fun e => "fill " ++ e)
   | none => none) <|>
  (if opts.StrokeWidth < 0 then some "stroke width must be non-negative" else none) <|>
  (if opts.StrokeColor.isNone && opts.FillColor.isNone && opts.FillGradient.isNone then
     some "polygon must have at least stroke, fill color, or gradient" else none) <|>
  (if opts.FillColor.isSome && opts.FillGradient.isSome then
     some "cannot use both fill color and fill gradient" else none) <|>
  (match opts.FillGradient with
   | some g => (gradientValidate g).map (fun e => "fill gradient: " ++ e)
   | none => none)

/-- DrawPolygon draws a closed polygon; the Option String result is the Go
error (none on success) and the returned Page is the updated receiver. -/
def DrawPolygon {G : Type} (validateColor : Color → Option String)
    (gradientValidate : G → Option String) (p : Page G)
    (vertices : List Point) (opts : Option (PolygonOptions G)) :
    Option String × Page G :=
  match opts with
  | none => (some "polygon options cannot be nil", p)
  | some o =>
      if vertices.length < 3 then
        (some "polygon must have at least 3 vertices", p)
      else
        match validatePolygonOptions validateColor gradientValidate o with
        | some e => (some e, p)
        | none =>
            (none, { p with graphicsOps :=
                       p.graphicsOps ++ [GraphicsOperation.polygonOp vertices o] })

/-- The validateEllipseOptions function. -/
def validateEllipseOptions {G : Type} (validateColor : Color → Option String)
    (gradientValidate : G → Option String) (opts : EllipseOptions G) : Option String :=
  (match opts.StrokeColor with
   | some c => (validateColor c).map (fun e => "stroke " ++ e)
   | none => none) <|>
  (match opts.FillColor with
   | some c => (validateColor c).map (fun e => "fill " ++ e)
   | none => none) <|>
  (if opts.StrokeWidth < 0 then some "stroke width must be non-negative" else none) <|>
  (if opts.StrokeColor.isNone && opts.FillColor.isNone && opts.FillGradient.isNone then
     some "ellipse must have at least stroke, fill color, or gradient" else none) <|>
  (if opts.FillColor.isSome && opts.FillGradient.isSome then
     some "cannot use both fill color and fill gradient" else none) <|>
  (match opts.FillGradient with
   | some g => (gradientValidate g).map (fun e => "fill gradient: " ++ e)
   | none => none)

/-- DrawEllipse draws an ellipse at center (cx, cy) with radii rx and ry. -/
def DrawEllipse {G : Type} (validateColor : Color → Option String)
    (gradientValidate : G → Option String) (p : Page G)
    (cx cy rx ry : Rat) (opts : Option (EllipseOptions G)) :
    Option String × Page G :=
  match opts with
  | none => (some "ellipse options cannot be nil", p)
  | some o =>
      if rx < 0 then (some "horizontal radius must be non-negative", p)
      else if ry < 0 then (some "vertical radius must be non-negative", p)
      else
        match validateEllipseOptions validateColor gradientValidate o with
        | some e => (some e, p)
        | none =>
            (none, { p with graphicsOps :=
                       p.graphicsOps ++ [GraphicsOperation.ellipseOp cx cy rx ry o] })

/-- The segment-continuity scan of DrawBezierCurve: each segment i compares
its Start with segment i-1's End, allowing differences up to epsilon 0.001. -/
def bezierSegmentsContinuous (segments : List BezierSegment) : Bool :=
  (segments.zip segments.tail).all (fun pr =>
    !(ratAbs (pr.1.End.X - pr.2.Start.X) > 1 / 1000
      || ratAbs (pr.1.End.Y - pr.2.Start.Y) > 1 / 1000))

/-- The validateBezierOptions function. -/
def validateBezierOptions {G : Type} (validateColor : Color → Option String)
    (gradientValidate : G → Option String) (opts : BezierOptions G) : Option String :=
  validateColor opts.Color <|>
  (if opts.Width < 0 then some "curve width must be non-negative" else none) <|>
  (match opts.FillColor with
   | some c => (validateColor c).map (fun e => "fill " ++ e)
   | none => none) <|>
  (if opts.FillColor.isSome && !opts.Closed then
     some "fill color requires closed curve (set Closed: true)" else none) <|>
  (if opts.FillColor.isSome && opts.FillGradient.isSome then
     some "cannot use both fill color and fill gradient" else none) <|>
  (match opts.FillGradient with
   | some g =>
       (if !opts.Closed then
          some "fill gradient requires closed curve (set Closed: true)" else none) <|>
       (gradientValidate g).map (fun e => "fill gradient: " ++ e)
   | none => none)

/-- DrawBezierCurve draws a curve composed of cubic Bezier segments. -/
def DrawBezierCurve {G : Type} (validateColor : Color → Option String)
    (gradientValidate : G → Option String) (p : Page G)
    (segments : List BezierSegment) (opts : Option (BezierOptions G)) :
    Option String × Page G :=
  match opts with
  | none => (some "bezier curve options cannot be nil", p)
  | some o =>
      if segments.length = 0 then
        (some "bezier curve must have at least 1 segment", p)
      else if !bezierSegmentsContinuous segments then
        (some "bezier segments must be continuous (segment start point must match previous segment end point)", p)
      else
        match validateBezierOptions validateColor gradientValidate o with
        | some e => (some e, p)
        | none =>
            (none, { p with graphicsOps :=
                       p.graphicsOps ++ [GraphicsOperation.bezierOp segments o] })

end Creator

/-! # Theorems -/

theorem strB_append (s t : String) : strB (s ++ t) = strB s ++ strB t := by
  simp [strB, String.data_append]

theorem mapLookup_mapInsert_self {α β : Type} [DecidableEq α]
    (m : List (α × β)) (k : α) (v : β) :
    mapLookup (mapInsert m k v) k = some v := by
  induction m with
  | nil => simp [mapInsert, mapLookup]
  | cons p rest ih =>
      obtain ⟨k0, v0⟩ := p
      by_cases h : k0 = k
      · simp [mapInsert, mapLookup, h]
      · simp [mapInsert, mapLookup, h, ih]

theorem mapLookup_eq_none_iff {α β : Type} [DecidableEq α]
    (m : List (α × β)) (k : α) :
    mapLookup m k = none ↔ k ∉ m.map Prod.fst := by
  induction m with
  | nil => simp [mapLookup]
  | cons p rest ih =>
      obtain ⟨k0, v0⟩ := p
      by_cases h : k0 = k
      · subst h
        simp [mapLookup]
      · have h' : ¬k = k0 := fun he => h he.symm
        simp [mapLookup, h, h', ih]

theorem mapLookup_isSome_iff {α β : Type} [DecidableEq α]
    (m : List (α × β)) (k : α) :
    (mapLookup m k).isSome = true ↔ k ∈ m.map Prod.fst := by
  induction m with
  | nil => simp [mapLookup]
  | cons p rest ih =>
      obtain ⟨k0, v0⟩ := p
      by_cases h : k0 = k
      · subst h
        simp [mapLookup]
      · have h' : ¬k = k0 := fun he => h he.symm
        simp [mapLookup, h, h', ih]

theorem mapLookup_mem_of_eq_some {α β : Type} [DecidableEq α]
    {m : List (α × β)} {k : α} {v : β} (h : mapLookup m k = some v) :
    (k, v) ∈ m := by
  induction m with
  | nil => simp [mapLookup] at h
  | cons p rest ih =>
      obtain ⟨k0, v0⟩ := p
      by_cases hk : k0 = k
      · subst hk
        simp [mapLookup] at h
        simp [h]
      · simp [mapLookup, hk] at h
        simp [ih h]

theorem filterKey_eq_nil {α β : Type} [DecidableEq α]
    (m : List (α × β)) (k : α) (h : k ∉ m.map Prod.fst) :
    m.filter (fun p => p.1 == k) = [] := by
  induction m with
  | nil => rfl
  | cons p rest ih =>
      obtain ⟨k0, v0⟩ := p
      simp only [List.map_cons, List.mem_cons] at h
      push_neg at h
      have hne : (k0 == k) = false := by
        simp [beq_iff_eq]
        exact fun he => h.1 he.symm
      simp [List.filter_cons, hne, ih h.2]

theorem filterKey_length_one {α β : Type} [DecidableEq α]
    (m : List (α × β)) (k : α) (hnd : (m.map Prod.fst).Nodup)
    (hm : k ∈ m.map Prod.fst) :
    (m.filter (fun p => p.1 == k)).length = 1 := by
  induction m with
  | nil => simp at hm
  | cons p rest ih =>
      obtain ⟨k0, v0⟩ := p
      simp only [List.map_cons, List.nodup_cons] at hnd
      by_cases hk : k0 = k
      · subst hk
        simp [List.filter_cons, filterKey_eq_nil rest k0 hnd.1]
      · have hne : (k0 == k) = false := by simp [beq_iff_eq, hk]
        simp only [List.map_cons, List.mem_cons] at hm
        rcases hm with h1 | h2
        · exact absurd h1.symm hk
        · simp [List.filter_cons, hne, ih hnd.2 h2]

theorem keys_mapInsert {α β : Type} [DecidableEq α]
    (m : List (α × β)) (k : α) (v : β) :
    (mapInsert m k v).map Prod.fst =
      if k ∈ m.map Prod.fst then m.map Prod.fst else m.map Prod.fst ++ [k] := by
  induction m with
  | nil => simp [mapInsert]
  | cons p rest ih =>
      obtain ⟨k0, v0⟩ := p
      by_cases hk : k0 = k
      · subst hk
        simp [mapInsert]
      · have h' : ¬k = k0 := fun he => hk he.symm
        by_cases hmem : k ∈ rest.map Prod.fst
        · simp [mapInsert, hk, ih, hmem, h']
        · simp [mapInsert, hk, ih, hmem, h']

theorem keys_nodup_mapInsert {α β : Type} [DecidableEq α]
    (m : List (α × β)) (k : α) (v : β) (h : (m.map Prod.fst).Nodup) :
    ((mapInsert m k v).map Prod.fst).Nodup := by
  rw [keys_mapInsert]
  by_cases hmem : k ∈ m.map Prod.fst
  · simpa [hmem]
  · simp only [hmem, if_false]
    refine List.Nodup.append h (List.nodup_singleton k) ?_
    simp only [List.disjoint_singleton]
    exact hmem

theorem mem_keys_mapInsert_self {α β : Type} [DecidableEq α]
    (m : List (α × β)) (k : α) (v : β) :
    k ∈ (mapInsert m k v).map Prod.fst := by
  rw [keys_mapInsert]
  by_cases hmem : k ∈ m.map Prod.fst <;> simp [hmem]

/-- Claim C5: AddFontWithID called twice with the same font ID returns the
same resource name both times and leaves the dictionary of the first call
unchanged, with exactly one binding registered for that ID; and a second
GetOrCreateExtGState call with the same opacity returns the first name with
needsCreation false and changes nothing. -/
theorem claim_C5 (rd : Writer.ResourceDictionary) (o1 o2 : Int) (fid : String)
    (op : Rat) (hnd : (rd.fontIDs.map Prod.fst).Nodup) :
    (((rd.AddFontWithID o1 fid).2.AddFontWithID o2 fid).1 = (rd.AddFontWithID o1 fid).1 ∧
     ((rd.AddFontWithID o1 fid).2.AddFontWithID o2 fid).2 = (rd.AddFontWithID o1 fid).2 ∧
     ((rd.AddFontWithID o1 fid).2.fontIDs.filter (fun p => p.1 == fid)).length = 1) ∧
    (((rd.GetOrCreateExtGState op).2.2.GetOrCreateExtGState op).1 =
       (rd.GetOrCreateExtGState op).1 ∧
     ((rd.GetOrCreateExtGState op).2.2.GetOrCreateExtGState op).2.1 = false ∧
     ((rd.GetOrCreateExtGState op).2.2.GetOrCreateExtGState op).2.2 =
       (rd.GetOrCreateExtGState op).2.2) := by
  constructor
  · unfold Writer.ResourceDictionary.AddFontWithID
    cases hl : mapLookup rd.fontIDs fid with
    | some nm =>
        simp only [hl]
        refine ⟨trivial, trivial, ?_⟩
        have hmem : fid ∈ rd.fontIDs.map Prod.fst := by
          rw [← mapLookup_isSome_iff]
          simp [hl]
        exact filterKey_length_one rd.fontIDs fid hnd hmem
    | none =>
        simp only [hl]
        have hl2 := mapLookup_mapInsert_self rd.fontIDs fid
          ("F" ++ toString (rd.fonts.length + 1))
        simp only [hl2]
        refine ⟨trivial, trivial, ?_⟩
        refine filterKey_length_one _ fid ?_ ?_
        · exact keys_nodup_mapInsert rd.fontIDs fid _ hnd
        · exact mem_keys_mapInsert_self rd.fontIDs fid _
  · unfold Writer.ResourceDictionary.GetOrCreateExtGState
    cases hl : mapLookup rd.extgstateCache op with
    | some nm =>
        simp only [hl]
        exact ⟨trivial, trivial, trivial⟩
    | none =>
        simp only [hl]
        have hl2 := mapLookup_mapInsert_self rd.extgstateCache op
          ("GS" ++ toString (rd.extgstates.length + 1))
        simp only [hl2]
        exact ⟨trivial, trivial, trivial⟩

/-- Witness for claim C5 at a concrete registry: an empty registry, the
Helvetica font ID added twice, and opacity one half requested twice. -/
theorem claim_C5_witness :
    (Writer.NewResourceDictionary.fontIDs.map Prod.fst).Nodup ∧
    ((((Writer.NewResourceDictionary.AddFontWithID 5 "std:Helvetica").2.AddFontWithID 7
        "std:Helvetica").1 = (Writer.NewResourceDictionary.AddFontWithID 5 "std:Helvetica").1 ∧
      ((Writer.NewResourceDictionary.AddFontWithID 5 "std:Helvetica").2.AddFontWithID 7
        "std:Helvetica").2 = (Writer.NewResourceDictionary.AddFontWithID 5 "std:Helvetica").2 ∧
      ((Writer.NewResourceDictionary.AddFontWithID 5 "std:Helvetica").2.fontIDs.filter
        (fun p => p.1 == "std:Helvetica")).length = 1) ∧
     (((Writer.NewResourceDictionary.GetOrCreateExtGState (1/2)).2.2.GetOrCreateExtGState
         (1/2)).1 = (Writer.NewResourceDictionary.GetOrCreateExtGState (1/2)).1 ∧
      ((Writer.NewResourceDictionary.GetOrCreateExtGState (1/2)).2.2.GetOrCreateExtGState
         (1/2)).2.1 = false ∧
      ((Writer.NewResourceDictionary.GetOrCreateExtGState (1/2)).2.2.GetOrCreateExtGState
         (1/2)).2.2 = (Writer.NewResourceDictionary.GetOrCreateExtGState (1/2)).2.2)) :=
  ⟨by simp [Writer.NewResourceDictionary],
   claim_C5 Writer.NewResourceDictionary 5 7 "std:Helvetica" (1/2)
     (by simp [Writer.NewResourceDictionary])⟩

theorem mapLookup_eq_some_of_mem {α β : Type} [DecidableEq α]
    {m : List (α × β)} {k : α} {v : β}
    (hnd : (m.map Prod.fst).Nodup) (hmem : (k, v) ∈ m) :
    mapLookup m k = some v := by
  induction m with
  | nil => simp at hmem
  | cons p rest ih =>
      obtain ⟨k0, v0⟩ := p
      simp only [List.map_cons, List.nodup_cons] at hnd
      rcases List.mem_cons.mp hmem with he | hrest
      · rw [Prod.mk.injEq] at he
        simp [mapLookup, he.1, he.2]
      · by_cases hk : k0 = k
        · subst hk
          exact absurd (List.mem_map_of_mem Prod.fst hrest) hnd.1
        · simp [mapLookup, hk, ih hnd.2 hrest]

theorem mapLookup_perm {α β : Type} [DecidableEq α] {m m' : List (α × β)}
    (h : m.Perm m') (hnd : (m.map Prod.fst).Nodup) (k : α) :
    mapLookup m k = mapLookup m' k := by
  have hnd' : (m'.map Prod.fst).Nodup := ((h.map Prod.fst).nodup_iff).mp hnd
  cases hm : mapLookup m k with
  | none =>
      cases hm' : mapLookup m' k with
      | none => rfl
      | some v =>
          exfalso
          have hmem : (k, v) ∈ m := h.symm.subset (mapLookup_mem_of_eq_some hm')
          have hk : k ∈ m.map Prod.fst := List.mem_map_of_mem Prod.fst hmem
          exact ((mapLookup_eq_none_iff m k).mp hm) hk
  | some v =>
      have hmem : (k, v) ∈ m' := h.subset (mapLookup_mem_of_eq_some hm)
      exact (mapLookup_eq_some_of_mem hnd' hmem).symm

theorem writeSortedResources_perm {m m' : List (String × Int)} (h : m.Perm m')
    (hnd : (m.map Prod.fst).Nodup) :
    Writer.ResourceDictionary.writeSortedResources m =
      Writer.ResourceDictionary.writeSortedResources m' := by
  unfold Writer.ResourceDictionary.writeSortedResources
  have hkeys : List.insertionSort (· ≤ ·) (m.map Prod.fst) =
      List.insertionSort (· ≤ ·) (m'.map Prod.fst) :=
    List.eq_of_perm_of_sorted
      ((List.perm_insertionSort _ _).trans
        ((h.map Prod.fst).trans (List.perm_insertionSort _ _).symm))
      (List.sorted_insertionSort _ _) (List.sorted_insertionSort _ _)
  have hlook : ∀ n, mapLookup m n = mapLookup m' n := mapLookup_perm h hnd
  rw [hkeys]
  simp only [hlook]

theorem resourceSection_perm {l l' : List (String × Int)} (pre : String)
    (h : l.Perm l') (hnd : (l.map Prod.fst).Nodup) :
    (if l.length > 0 then pre ++ Writer.ResourceDictionary.writeSortedResources l ++ " >>" else "")
      = (if l'.length > 0 then pre ++ Writer.ResourceDictionary.writeSortedResources l' ++ " >>" else "") := by
  rw [← h.length_eq, writeSortedResources_perm h hnd]

theorem appended_section_ne_empty (pre mid post : String) (hpre : 0 < pre.length) :
    pre ++ mid ++ post ≠ "" := by
  intro he
  have := congrArg String.length he
  simp only [String.length_append] at this
  have h0 : ("" : String).length = 0 := rfl
  omega

/-- Claim C6: resource dictionary serialization emits each non-empty
sub-dictionary with entries in lexicographic name order independent of
insertion order, omits empty sub-dictionaries, emits ProcSet exactly when
some resource exists, and renders a wholly empty registry as an empty
dictionary. -/
theorem claim_C6 :
    Writer.NewResourceDictionary.Bytes = "<< >>" ∧
    (∀ rd : Writer.ResourceDictionary,
      (rd.fontSection = "" ↔ rd.fonts = []) ∧
      (rd.xobjectSection = "" ↔ rd.xobjects = []) ∧
      (rd.extgstateSection = "" ↔ rd.extgstates = []) ∧
      (rd.procSetSection ≠ "" ↔ rd.HasResources = true)) ∧
    (∀ m : List (String × Int), ∃ names : List String,
      List.Sorted (· ≤ ·) names ∧ names.Perm (m.map Prod.fst) ∧
      Writer.ResourceDictionary.writeSortedResources m =
        String.join (names.map (fun n =>
          " /" ++ n ++ " " ++ toString ((mapLookup m n).getD 0) ++ " 0 R"))) ∧
    (∀ rd rd' : Writer.ResourceDictionary,
      rd.fonts.Perm rd'.fonts → rd.xobjects.Perm rd'.xobjects →
      rd.extgstates.Perm rd'.extgstates →
      (rd.fonts.map Prod.fst).Nodup → (rd.xobjects.map Prod.fst).Nodup →
      (rd.extgstates.map Prod.fst).Nodup →
      rd.Bytes = rd'.Bytes) := by
  refine ⟨rfl, ?_, ?_, ?_⟩
  · intro rd
    refine ⟨?_, ?_, ?_, ?_⟩
    · unfold Writer.ResourceDictionary.fontSection
      by_cases h : rd.fonts.length > 0
      · simp only [h, if_true]
        constructor
        · intro he
          exact absurd he (appended_section_ne_empty _ _ _ (by decide))
        · intro he
          rw [he] at h
          simp at h
      · simp only [h, if_false]
        simp only [gt_iff_lt, Nat.pos_iff_ne_zero, ne_eq, not_not] at h
        simp [List.length_eq_zero.mp h]
    · unfold Writer.ResourceDictionary.xobjectSection
      by_cases h : rd.xobjects.length > 0
      · simp only [h, if_true]
        constructor
        · intro he
          exact absurd he (appended_section_ne_empty _ _ _ (by decide))
        · intro he
          rw [he] at h
          simp at h
      · simp only [h, if_false]
        simp only [gt_iff_lt, Nat.pos_iff_ne_zero, ne_eq, not_not] at h
        simp [List.length_eq_zero.mp h]
    · unfold Writer.ResourceDictionary.extgstateSection
      by_cases h : rd.extgstates.length > 0
      · simp only [h, if_true]
        constructor
        · intro he
          exact absurd he (appended_section_ne_empty _ _ _ (by decide))
        · intro he
          rw [he] at h
          simp at h
      · simp only [h, if_false]
        simp only [gt_iff_lt, Nat.pos_iff_ne_zero, ne_eq, not_not] at h
        simp [List.length_eq_zero.mp h]
    · unfold Writer.ResourceDictionary.procSetSection
      by_cases h : rd.HasResources
      · simp [h]
      · simp [h]
  · intro m
    refine ⟨List.insertionSort (· ≤ ·) (m.map Prod.fst),
      List.sorted_insertionSort _ _, List.perm_insertionSort _ _, rfl⟩
  · intro rd rd' hf hx hg ndf ndx ndg
    unfold Writer.ResourceDictionary.Bytes
    unfold Writer.ResourceDictionary.fontSection
    unfold Writer.ResourceDictionary.xobjectSection
    unfold Writer.ResourceDictionary.extgstateSection
    unfold Writer.ResourceDictionary.procSetSection
    unfold Writer.ResourceDictionary.HasResources
    rw [resourceSection_perm " /Font <<" hf ndf,
        resourceSection_perm " /XObject <<" hx ndx,
        resourceSection_perm " /ExtGState <<" hg ndg,
        hf.length_eq, hx.length_eq, hg.length_eq]

/-- Witness for claim C6: two registries with the same font entries inserted
in opposite orders serialize identically. -/
theorem claim_C6_witness :
    ((Writer.ResourceDictionary.mk [("F2", 6), ("F1", 5)] [] [] [] [] []).fonts.Perm
       (Writer.ResourceDictionary.mk [("F1", 5), ("F2", 6)] [] [] [] [] []).fonts ∧
     ((Writer.ResourceDictionary.mk [("F2", 6), ("F1", 5)] [] [] [] [] []).fonts.map
        Prod.fst).Nodup) ∧
    (Writer.ResourceDictionary.mk [("F2", 6), ("F1", 5)] [] [] [] [] []).Bytes =
      (Writer.ResourceDictionary.mk [("F1", 5), ("F2", 6)] [] [] [] [] []).Bytes :=
  ⟨⟨by decide, by decide⟩,
   claim_C6.2.2.2 (Writer.ResourceDictionary.mk [("F2", 6), ("F1", 5)] [] [] [] [] [])
     (Writer.ResourceDictionary.mk [("F1", 5), ("F2", 6)] [] [] [] [] [])
     (by decide) (by decide) (by decide) (by decide) (by decide) (by decide)⟩

/-- Claim C10: each of DrawPolygon, DrawEllipse and DrawBezierCurve returns
an error and leaves the stored graphics-operation list unchanged whenever
any validation fails, and appends exactly one graphics operation on success;
proved for every behaviour of the external color and gradient validators. -/
theorem claim_C10 {G : Type} (vc : Creator.Color → Option String)
    (gv : G → Option String) (p : Creator.Page G)
    (vertices : List Creator.Point) (optsP : Option (Creator.PolygonOptions G))
    (cx cy rx ry : Rat) (optsE : Option (Creator.EllipseOptions G))
    (segments : List Creator.BezierSegment) (optsB : Option (Creator.BezierOptions G)) :
    (((Creator.DrawPolygon vc gv p vertices optsP).1.isSome = true →
        (Creator.DrawPolygon vc gv p vertices optsP).2 = p) ∧
     ((Creator.DrawPolygon vc gv p vertices optsP).1 = none →
        ∃ op, (Creator.DrawPolygon vc gv p vertices optsP).2.graphicsOps
                = p.graphicsOps ++ [op])) ∧
    (((Creator.DrawEllipse vc gv p cx cy rx ry optsE).1.isSome = true →
        (Creator.DrawEllipse vc gv p cx cy rx ry optsE).2 = p) ∧
     ((Creator.DrawEllipse vc gv p cx cy rx ry optsE).1 = none →
        ∃ op, (Creator.DrawEllipse vc gv p cx cy rx ry optsE).2.graphicsOps
                = p.graphicsOps ++ [op])) ∧
    (((Creator.DrawBezierCurve vc gv p segments optsB).1.isSome = true →
        (Creator.DrawBezierCurve vc gv p segments optsB).2 = p) ∧
     ((Creator.DrawBezierCurve vc gv p segments optsB).1 = none →
        ∃ op, (Creator.DrawBezierCurve vc gv p segments optsB).2.graphicsOps
                = p.graphicsOps ++ [op])) := by
  refine ⟨?_, ?_, ?_⟩
  · unfold Creator.DrawPolygon
    cases optsP with
    | none => exact ⟨fun _ => by trivial, fun h => by simp at h⟩
    | some o =>
        by_cases hv : vertices.length < 3
        · simp only [hv, if_true]
          exact ⟨fun _ => by trivial, fun h => by simp at h⟩
        · simp only [hv, if_false]
          cases hval : Creator.validatePolygonOptions vc gv o with
          | some e =>
              simp only [hval]
              exact ⟨fun _ => by trivial, fun h => by simp at h⟩
          | none =>
              simp only [hval]
              exact ⟨fun h => by simp at h, fun _ => ⟨_, rfl⟩⟩
  · unfold Creator.DrawEllipse
    cases optsE with
    | none => exact ⟨fun _ => by trivial, fun h => by simp at h⟩
    | some o =>
        by_cases hx : rx < 0
        · simp only [hx, if_true]
          exact ⟨fun _ => by trivial, fun h => by simp at h⟩
        · simp only [hx, if_false]
          by_cases hy : ry < 0
          · simp only [hy, if_true]
            exact ⟨fun _ => by trivial, fun h => by simp at h⟩
          · simp only [hy, if_false]
            cases hval : Creator.validateEllipseOptions vc gv o with
            | some e =>
                simp only [hval]
                exact ⟨fun _ => by trivial, fun h => by simp at h⟩
            | none =>
                simp only [hval]
                exact ⟨fun h => by simp at h, fun _ => ⟨_, rfl⟩⟩
  · unfold Creator.DrawBezierCurve
    cases optsB with
    | none => exact ⟨fun _ => by trivial, fun h => by simp at h⟩
    | some o =>
        by_cases hn : segments.length = 0
        · simp only [hn, if_true]
          exact ⟨fun _ => by trivial, fun h => by simp at h⟩
        · simp only [hn, if_false]
          by_cases hc : Creator.bezierSegmentsContinuous segments
          · simp only [hc, Bool.not_true, if_false]
            cases hval : Creator.validateBezierOptions vc gv o with
            | some e =>
                simp only [hval]
                exact ⟨fun _ => by trivial, fun h => by simp at h⟩
            | none =>
                simp only [hval]
                exact ⟨fun h => by simp at h, fun _ => ⟨_, rfl⟩⟩
          · simp only [Bool.not_eq_true] at hc
            simp only [hc, Bool.not_false, if_true]
            exact ⟨fun _ => by trivial, fun h => by simp at h⟩

/-- Witness for claim C10: a valid triangle appended by DrawPolygon to an
empty page, under trivially accepting validators. -/
theorem claim_C10_witness :
    ((Creator.DrawPolygon (G := Unit) (fun _ => none) (fun _ => none)
        (Creator.Page.mk []) [⟨0, 0⟩, ⟨1, 0⟩, ⟨0, 1⟩]
        (some (Creator.PolygonOptions.mk none none 0
          (some (Creator.Color.mk 0 0 0)) none none false [] 0 none))).1 = none) ∧
    (∃ op, (Creator.DrawPolygon (G := Unit) (fun _ => none) (fun _ => none)
        (Creator.Page.mk []) [⟨0, 0⟩, ⟨1, 0⟩, ⟨0, 1⟩]
        (some (Creator.PolygonOptions.mk none none 0
          (some (Creator.Color.mk 0 0 0)) none none false [] 0 none))).2.graphicsOps
          = (Creator.Page.mk [] : Creator.Page Unit).graphicsOps ++ [op]) :=
  ⟨by decide,
   (claim_C10 (G := Unit) (fun _ => none) (fun _ => none) (Creator.Page.mk [])
      [⟨0, 0⟩, ⟨1, 0⟩, ⟨0, 1⟩]
      (some (Creator.PolygonOptions.mk none none 0
        (some (Creator.Color.mk 0 0 0)) none none false [] 0 none))
      0 0 0 0 none [] none).1.2 (by decide)⟩

/-- Claim C9: for a page whose image operations consist of one PNG image
with a non-empty alpha mask, createAndAssignImageXObjects produces exactly
two stream objects: the soft mask (numbered one past the image) first, then
the image XObject, whose dictionary carries an SMask reference to the mask
number, while the mask dictionary carries DeviceGray, 8 bits per component
and FlateDecode. -/
theorem claim_C9 (gops : List Writer.GraphicsOp) (rd : Writer.ResourceDictionary)
    (n : Nat) (img : Writer.ImageData)
    (himg : Writer.imagesOf gops = [img])
    (hmask : img.AlphaMask.length > 0)
    (hfmt : img.Format = "png") :
    ∃ maskObj imgObj : IndirectObject, ∃ rd' : Writer.ResourceDictionary,
      Writer.createAndAssignImageXObjects gops rd n =
        Except.ok ([maskObj, imgObj], rd', n + 2) ∧
      imgObj.Number = n ∧
      maskObj.Number = n + 1 ∧
      (∃ a b, imgObj.body = a ++ strB (" /SMask " ++ toString (n + 1) ++ " 0 R") ++ b) ∧
      (∃ a b, imgObj.body = a ++ strB " /Filter /FlateDecode" ++ b) ∧
      (∃ a b, maskObj.body = a ++ strB " /ColorSpace /DeviceGray"
          ++ strB " /BitsPerComponent 8" ++ strB " /Filter /FlateDecode" ++ b) := by
  have hj : (img.Format == "jpeg") = false := by
    rw [hfmt]
    decide
  have hp : (img.Format == "png") = true := by
    rw [hfmt]
    decide
  refine ⟨Writer.createSMaskObject (n + 1) img, Writer.createImageXObject n img (n + 1),
    Writer.ResourceDictionary.SetImageObjNum rd ("Im" ++ toString (0 + 1)) (Int.ofNat n),
    ?_, rfl, rfl, ?_, ?_, ?_⟩
  · unfold Writer.createAndAssignImageXObjects
    rw [himg]
    unfold Writer.imageLoop
    simp only [hmask, if_pos]
    unfold Writer.imageLoop
    simp
  · refine ⟨strB ("<< /Type /XObject /Subtype /Image"
        ++ " /Width " ++ toString img.Width ++ " /Height " ++ toString img.Height
        ++ " /ColorSpace /" ++ img.ColorSpace
        ++ " /BitsPerComponent " ++ toString img.BitsPerComponent
        ++ " /Filter /FlateDecode"),
      strB (" /Length " ++ toString img.Data.length ++ " >>\n" ++ "stream\n")
        ++ img.Data ++ strB "\nendstream", ?_⟩
    simp [Writer.createImageXObject, NewIndirectObject, hj, hp, strB_append,
      List.append_assoc]
  · refine ⟨strB ("<< /Type /XObject /Subtype /Image"
        ++ " /Width " ++ toString img.Width ++ " /Height " ++ toString img.Height
        ++ " /ColorSpace /" ++ img.ColorSpace
        ++ " /BitsPerComponent " ++ toString img.BitsPerComponent),
      strB (" /SMask " ++ toString (n + 1) ++ " 0 R"
          ++ " /Length " ++ toString img.Data.length ++ " >>\n" ++ "stream\n")
        ++ img.Data ++ strB "\nendstream", ?_⟩
    simp [Writer.createImageXObject, NewIndirectObject, hj, hp, strB_append,
      List.append_assoc]
  · refine ⟨strB ("<< /Type /XObject /Subtype /Image"
        ++ " /Width " ++ toString img.Width ++ " /Height " ++ toString img.Height),
      strB (" /Length " ++ toString img.AlphaMask.length ++ " >>\n" ++ "stream\n")
        ++ img.AlphaMask ++ strB "\nendstream", ?_⟩
    simp [Writer.createSMaskObject, NewIndirectObject, strB_append, List.append_assoc]

/-- Witness for claim C9 at the concrete sample image, with allocation
starting at object number 7. -/
theorem claim_C9_witness :
    Writer.imagesOf [Writer.sampleImageOp] = [Writer.sampleImage] ∧
    Writer.sampleImage.AlphaMask.length > 0 ∧
    Writer.sampleImage.Format = "png" ∧
    (∃ maskObj imgObj : IndirectObject, ∃ rd' : Writer.ResourceDictionary,
      Writer.createAndAssignImageXObjects [Writer.sampleImageOp]
          Writer.NewResourceDictionary 7 =
        Except.ok ([maskObj, imgObj], rd', 9) ∧
      imgObj.Number = 7 ∧ maskObj.Number = 8) := by
  refine ⟨by decide, by decide, by decide, ?_⟩
  obtain ⟨maskObj, imgObj, rd', hok, hni, hnm, _⟩ :=
    claim_C9 [Writer.sampleImageOp] Writer.NewResourceDictionary 7 Writer.sampleImage
      (by decide) (by decide) (by decide)
  exact ⟨maskObj, imgObj, rd', hok, hni, hnm⟩

/-- Claim C4: when the font-collection step or the content-stream generation
for a page with content fails, createPageWithAllContent still returns a page
dictionary with an empty Resources dictionary and no Contents reference,
with no content object, no auxiliary objects, an untouched allocator, and no
error; and image-XObject creation cannot fail at all (its Go error result is
always nil), so no image failure can fail the page. -/
theorem claim_C4 (oracles : Writer.PageOracles) (page : PageModel)
    (objNum parentRef : Nat) (textOps : List Writer.TextOp)
    (graphicsOps : List Writer.GraphicsOp) (n : Nat)
    (hcontent : textOps.length > 0 ∨ graphicsOps.length > 0) :
    ((textOps.length > 0 || Writer.hasTextBlockOps graphicsOps) = true →
      ∀ e, oracles.createFontCollectionWithGraphics textOps graphicsOps = Except.error e →
      Writer.createPageWithAllContent oracles page objNum parentRef textOps graphicsOps n =
        (Writer.degradedPageObj page objNum parentRef, none, [], n)) ∧
    (∀ e, oracles.generateContentStreamWithGraphics textOps graphicsOps = Except.error e →
      Writer.createPageWithAllContent oracles page objNum parentRef textOps graphicsOps n =
        (Writer.degradedPageObj page objNum parentRef, none, [], n)) ∧
    (∀ (gops : List Writer.GraphicsOp) (rd : Writer.ResourceDictionary) (m : Nat),
      ∃ v, Writer.createAndAssignImageXObjects gops rd m = Except.ok v) := by
  have hcond : (textOps.length > 0 || graphicsOps.length > 0) = true := by
    rcases hcontent with h | h <;> simp [h]
  refine ⟨?_, ?_, fun gops rd m => ⟨_, rfl⟩⟩
  · intro htext e herr
    unfold Writer.createPageWithAllContent
    simp only [hcond, if_true, htext, herr, Except.map]
  · intro e herr
    unfold Writer.createPageWithAllContent
    simp only [hcond, if_true, herr]
    cases htext : (textOps.length > 0 || Writer.hasTextBlockOps graphicsOps) with
    | true =>
        simp only [if_true]
        cases hfc : oracles.createFontCollectionWithGraphics textOps graphicsOps with
        | error efc => simp [hfc, Except.map]
        | ok fc => simp [hfc, Except.map, herr]
    | false => simp [herr]

/-- Witness for claim C4: a page with one image operation degraded by a
failing content-stream generator. -/
theorem claim_C4_witness :
    (([] : List Writer.TextOp).length > 0 ∨ [Writer.sampleImageOp].length > 0) ∧
    (Writer.sampleFailingOracles.generateContentStreamWithGraphics []
       [Writer.sampleImageOp] = Except.error "content generation failed") ∧
    Writer.createPageWithAllContent Writer.sampleFailingOracles Writer.samplePage
        4 1 [] [Writer.sampleImageOp] 5 =
      (Writer.degradedPageObj Writer.samplePage 4 1, none, [], 5) :=
  ⟨Or.inr (by decide), rfl,
   (claim_C4 Writer.sampleFailingOracles Writer.samplePage 4 1 []
      [Writer.sampleImageOp] 5 (Or.inr (by decide))).2.1
     "content generation failed" rfl⟩

/-- Claim C7: Close is idempotent (the first call flushes and marks the
writer closed, every later Close is a successful no-op), and any Write or
write-with-content call on a closed writer fails with the writer-closed
error while leaving the whole writer state, including all flushed bytes,
untouched. -/
theorem claim_C7 (w : Writer.PdfW) (doc : Document)
    (oracles : Writer.PageOracles) (textContents : Nat → List Writer.TextOp)
    (graphicsContents : Nat → List Writer.GraphicsOp) :
    (Writer.CloseM (Writer.CloseM w).2 = (Except.ok (), (Writer.CloseM w).2)) ∧
    (w.closed = false →
      (Writer.CloseM w).1 = Except.ok () ∧
      (Writer.CloseM w).2.closed = true ∧
      (Writer.CloseM w).2.buffer = [] ∧
      (Writer.CloseM w).2.sink = w.sink ++ w.buffer) ∧
    (w.closed = true →
      Writer.WriteM doc w = (Except.error "writer is closed", w) ∧
      Writer.WriteWithAllContentM oracles doc textContents graphicsContents w =
        (Except.error "writer is closed", w)) := by
  refine ⟨?_, ?_, ?_⟩
  · cases hclosed : w.closed with
    | true => simp [Writer.CloseM, hclosed]
    | false => simp [Writer.CloseM, Writer.flushW, hclosed]
  · intro hclosed
    simp [Writer.CloseM, Writer.flushW, hclosed]
  · intro hclosed
    constructor
    · unfold Writer.WriteM
      simp [hclosed]
    · unfold Writer.WriteWithAllContentM
      simp [hclosed]

/-- Witness for claim C7 at a concrete closed counter-mode writer and the
sample document. -/
theorem claim_C7_witness :
    (Writer.PdfW.mk false [] 0 [] [] [] 1 true).closed = true ∧
    Writer.WriteM Writer.sampleDoc (Writer.PdfW.mk false [] 0 [] [] [] 1 true) =
      (Except.error "writer is closed", Writer.PdfW.mk false [] 0 [] [] [] 1 true) :=
  ⟨rfl,
   ((claim_C7 (Writer.PdfW.mk false [] 0 [] [] [] 1 true) Writer.sampleDoc
      Writer.sampleFailingOracles (fun _ => []) (fun _ => [])).2.2 rfl).1⟩

/-- Claim C8: a Write or WriteWithAllContent call on a non-closed writer is
insensitive to whatever object list, offset table, or allocator value the
writer carried over from an earlier call: for a valid document the entire
result agrees with the result from a writer whose those fields are
arbitrary, because both are reset (objects and offsets emptied, allocator
restarted at 1) at entry. -/
theorem claim_C8 (w w' : Writer.PdfW) (doc : Document)
    (oracles : Writer.PageOracles) (textContents : Nat → List Writer.TextOp)
    (graphicsContents : Nat → List Writer.GraphicsOp)
    (hc : w.closed = false) (hc' : w'.closed = false)
    (hf : w'.isFile = w.isFile) (hs : w'.sink = w.sink)
    (hb : w'.buffer = w.buffer) (hn : w'.cn = w.cn)
    (hval : docValidate doc = none) :
    Writer.WriteM doc w' = Writer.WriteM doc w ∧
    Writer.WriteWithAllContentM oracles doc textContents graphicsContents w' =
      Writer.WriteWithAllContentM oracles doc textContents graphicsContents w := by
  have hreset :
      ({ isFile := w'.isFile, sink := w'.sink, cn := w'.cn, buffer := w'.buffer,
         objects := [], offsets := [], nextObjNum := 1, closed := false } : Writer.PdfW) =
      ({ isFile := w.isFile, sink := w.sink, cn := w.cn, buffer := w.buffer,
         objects := [], offsets := [], nextObjNum := 1, closed := false } : Writer.PdfW) := by
    rw [hf, hs, hb, hn]
  constructor
  · unfold Writer.WriteM
    simp only [hc, hc', hval, Bool.false_eq_true, if_false]
    rw [hreset]
  · unfold Writer.WriteWithAllContentM
    simp only [hc, hc', hval, Bool.false_eq_true, if_false]
    rw [hreset]

/-- Witness for claim C8: a fresh counter-mode writer against one carrying
leftover objects, offsets and a high allocator value. -/
theorem claim_C8_witness :
    ((Writer.freshWriter false).closed = false ∧
     (Writer.PdfW.mk false [] 0 [] [NewIndirectObject 3 0 (strB "junk")] [(1, 5)] 42
        false).closed = false ∧
     docValidate Writer.sampleDoc = none) ∧
    Writer.WriteM Writer.sampleDoc
        (Writer.PdfW.mk false [] 0 [] [NewIndirectObject 3 0 (strB "junk")] [(1, 5)] 42
          false) =
      Writer.WriteM Writer.sampleDoc (Writer.freshWriter false) :=
  ⟨⟨rfl, rfl, rfl⟩,
   (claim_C8 (Writer.freshWriter false)
      (Writer.PdfW.mk false [] 0 [] [NewIndirectObject 3 0 (strB "junk")] [(1, 5)] 42 false)
      Writer.sampleDoc Writer.sampleFailingOracles (fun _ => []) (fun _ => [])
      rfl rfl rfl rfl rfl rfl rfl).1⟩

/-! ## Sink-mode equivalence infrastructure (claim C3) -/

theorem totalOut_emit (w : Writer.PdfW) (bs : List Byte) :
    Writer.totalOut (Writer.emit w bs) = Writer.totalOut w ++ bs := by
  simp [Writer.totalOut, Writer.emit]

theorem totalOut_flushW (w : Writer.PdfW) :
    Writer.totalOut (Writer.flushW w) = Writer.totalOut w := by
  simp [Writer.totalOut, Writer.flushW]

theorem cnInv_flushW (w : Writer.PdfW) (h : w.cn = w.sink.length) :
    (Writer.flushW w).cn = (Writer.flushW w).sink.length := by
  simp [Writer.flushW, h]

theorem getCurrentOffset_fst (w : Writer.PdfW) (h : w.cn = w.sink.length) :
    (Writer.getCurrentOffset w).1 = (Writer.totalOut w).length := by
  cases hf : w.isFile <;>
    simp [Writer.getCurrentOffset, Writer.flushW, Writer.totalOut, hf, h]

theorem getCurrentOffset_snd (w : Writer.PdfW) :
    (Writer.getCurrentOffset w).2 = Writer.flushW w := rfl

theorem getCurrentOffset_withMode (w : Writer.PdfW) (b : Bool)
    (h : w.cn = w.sink.length) :
    Writer.getCurrentOffset (Writer.withMode w b) =
      ((Writer.getCurrentOffset w).1, Writer.withMode (Writer.getCurrentOffset w).2 b) := by
  have h2 : (Writer.withMode w b).cn = (Writer.withMode w b).sink.length := h
  have e1 : (Writer.getCurrentOffset (Writer.withMode w b)).1 =
      (Writer.getCurrentOffset w).1 := by
    rw [getCurrentOffset_fst _ h2, getCurrentOffset_fst _ h]
    rfl
  have e2 : (Writer.getCurrentOffset (Writer.withMode w b)).2 =
      Writer.withMode (Writer.getCurrentOffset w).2 b := rfl
  exact Prod.ext e1 e2

theorem writeObjects_withMode (l : List IndirectObject) (w : Writer.PdfW) (b : Bool)
    (h : w.cn = w.sink.length) :
    Writer.writeObjects (Writer.withMode w b) l =
      Writer.withMode (Writer.writeObjects w l) b := by
  induction l generalizing w with
  | nil => rfl
  | cons o rest ih =>
      have hinv2 : (Writer.emit { (Writer.getCurrentOffset w).2 with
          offsets := mapInsert (Writer.getCurrentOffset w).2.offsets o.Number
            (Writer.getCurrentOffset w).1 } (serializeObject o)).cn =
          (Writer.emit { (Writer.getCurrentOffset w).2 with
          offsets := mapInsert (Writer.getCurrentOffset w).2.offsets o.Number
            (Writer.getCurrentOffset w).1 } (serializeObject o)).sink.length := by
        simp [Writer.emit, getCurrentOffset_snd, Writer.flushW, h]
      unfold Writer.writeObjects
      rw [getCurrentOffset_withMode w b h]
      have := ih _ hinv2
      simpa [Writer.withMode, Writer.emit] using this

theorem writeObjects_cnInv (l : List IndirectObject) (w : Writer.PdfW)
    (h : w.cn = w.sink.length) :
    (Writer.writeObjects w l).cn = (Writer.writeObjects w l).sink.length := by
  induction l generalizing w with
  | nil => exact h
  | cons o rest ih =>
      unfold Writer.writeObjects
      apply ih
      simp [Writer.emit, getCurrentOffset_snd, Writer.flushW, h]

theorem writeXRefEntries_withMode (count start : Nat) (w : Writer.PdfW) (b : Bool) :
    Writer.writeXRefEntries (Writer.withMode w b) start count =
      ((Writer.writeXRefEntries w start count).1,
        Writer.withMode (Writer.writeXRefEntries w start count).2 b) := by
  induction count generalizing start w with
  | zero => rfl
  | succ k ih =>
      unfold Writer.writeXRefEntries
      have hoff : (Writer.withMode w b).offsets = w.offsets := rfl
      rw [hoff]
      cases hl : mapLookup w.offsets start with
      | none => rfl
      | some off =>
          have := ih (start + 1) (Writer.emit w (strB (Writer.xrefEntryLine off)))
          simpa [Writer.withMode, Writer.emit] using this

theorem writeXRefEntries_cn (count start : Nat) (w : Writer.PdfW) :
    (Writer.writeXRefEntries w start count).2.cn = w.cn ∧
    (Writer.writeXRefEntries w start count).2.sink = w.sink := by
  induction count generalizing start w with
  | zero => exact ⟨rfl, rfl⟩
  | succ k ih =>
      unfold Writer.writeXRefEntries
      cases hl : mapLookup w.offsets start with
      | none => exact ⟨rfl, rfl⟩
      | some off => exact ih (start + 1) _

theorem writeXRef_withMode (w : Writer.PdfW) (b : Bool) (h : w.cn = w.sink.length) :
    Writer.writeXRef (Writer.withMode w b) =
      ((Writer.writeXRef w).1, Writer.withMode (Writer.writeXRef w).2 b) := by
  unfold Writer.writeXRef
  rw [getCurrentOffset_withMode w b h]
  have hstep : ∀ x : Writer.PdfW,
      Writer.emit (Writer.emit (Writer.emit (Writer.withMode x b) (strB "xref\n"))
        (strB ("0 " ++ toString (Writer.emit (Writer.withMode x b)
          (strB "xref\n")).nextObjNum ++ "\n"))) (strB "0000000000 65535 f \n") =
      Writer.withMode (Writer.emit (Writer.emit (Writer.emit x (strB "xref\n"))
        (strB ("0 " ++ toString (Writer.emit x (strB "xref\n")).nextObjNum ++ "\n")))
        (strB "0000000000 65535 f \n")) b := fun _ => rfl
  simp only [getCurrentOffset_snd]
  rw [hstep (Writer.flushW w)]
  have hnum : ∀ x : Writer.PdfW, (Writer.withMode x b).nextObjNum = x.nextObjNum :=
    fun _ => rfl
  rw [hnum, writeXRefEntries_withMode]
  cases hr : (Writer.writeXRefEntries (Writer.emit (Writer.emit (Writer.emit
      (Writer.flushW w) (strB "xref\n")) (strB ("0 " ++ toString (Writer.emit
        (Writer.flushW w) (strB "xref\n")).nextObjNum ++ "\n")))
      (strB "0000000000 65535 f \n")) 1
      ((Writer.emit (Writer.emit (Writer.emit (Writer.flushW w) (strB "xref\n"))
        (strB ("0 " ++ toString (Writer.emit (Writer.flushW w)
          (strB "xref\n")).nextObjNum ++ "\n"))) (strB "0000000000 65535 f \n")).nextObjNum
        - 1)).1 with
  | none => simp [hr]
  | some e => simp [hr]

theorem writeTrailer_withMode (catalogRef size xrefOffset : Nat) (doc : Document)
    (w : Writer.PdfW) (b : Bool) :
    Writer.writeTrailer catalogRef size xrefOffset doc (Writer.withMode w b) =
      Writer.withMode (Writer.writeTrailer catalogRef size xrefOffset doc w) b := by
  unfold Writer.writeTrailer
  cases hm : Writer.metadataPresent doc <;>
    simp [hm, Writer.withMode, Writer.emit]

theorem assembleDocument_withMode (doc : Document) (w : Writer.PdfW) (b : Bool) :
    Writer.assembleDocument doc (Writer.withMode w b) =
      (Writer.withMode (Writer.assembleDocument doc w).1 b,
        (Writer.assembleDocument doc w).2) := rfl

theorem withMode_nextObjNum (x : Writer.PdfW) (b : Bool) :
    (Writer.withMode x b).nextObjNum = x.nextObjNum := rfl

theorem flushW_withMode (x : Writer.PdfW) (b : Bool) :
    Writer.flushW (Writer.withMode x b) = Writer.withMode (Writer.flushW x) b := rfl

theorem writeBody_withMode (doc : Document) (catalogRef : Nat) (w : Writer.PdfW)
    (b : Bool) (h : w.cn = w.sink.length) :
    Writer.writeBody doc catalogRef (Writer.withMode w b) =
      ((Writer.writeBody doc catalogRef w).1,
        Writer.withMode (Writer.writeBody doc catalogRef w).2 b) := by
  have hobjs : (Writer.withMode w b).objects = w.objects := rfl
  unfold Writer.writeBody
  simp only [hobjs, writeObjects_withMode _ _ _ h,
    writeXRef_withMode (Writer.writeObjects w w.objects) b
      (writeObjects_cnInv w.objects w h)]
  cases hx : (Writer.writeXRef (Writer.writeObjects w w.objects)).1 with
  | error e => simp [hx]
  | ok xrefOffset =>
      simp only [hx, withMode_nextObjNum, writeTrailer_withMode, flushW_withMode]

theorem WriteM_withMode (doc : Document) (w : Writer.PdfW) (b : Bool)
    (h : w.cn = w.sink.length) :
    Writer.WriteM doc (Writer.withMode w b) =
      ((Writer.WriteM doc w).1, Writer.withMode (Writer.WriteM doc w).2 b) := by
  unfold Writer.WriteM
  have hcl : (Writer.withMode w b).closed = w.closed := rfl
  rw [hcl]
  cases hc : w.closed with
  | true => rfl
  | false =>
      simp only [Bool.false_eq_true, if_false]
      cases hval : docValidate doc with
      | some e => rfl
      | none =>
          simp only
          have hreset : ({ isFile := (Writer.withMode w b).isFile, sink := (Writer.withMode w b).sink, cn := (Writer.withMode w b).cn, buffer := (Writer.withMode w b).buffer, objects := [], offsets := [], nextObjNum := 1, closed := false } : Writer.PdfW) =
              Writer.withMode ({ isFile := w.isFile, sink := w.sink, cn := w.cn, buffer := w.buffer, objects := [], offsets := [], nextObjNum := 1, closed := false } : Writer.PdfW) b := rfl
          rw [hreset, assembleDocument_withMode]
          exact writeBody_withMode doc _ _ b h

/-- Claim C3: for every document, the Write pipeline produces identical
results through a file sink (offset by seek) and through an in-memory
counting sink (offset by running byte count): the returned value and every
observable state component, in particular the flushed output bytes, the
buffered bytes and the recorded offset table, coincide. -/
theorem claim_C3 (doc : Document) :
    (Writer.WriteM doc (Writer.freshWriter true)).1 =
      (Writer.WriteM doc (Writer.freshWriter false)).1 ∧
    (Writer.WriteM doc (Writer.freshWriter true)).2.sink =
      (Writer.WriteM doc (Writer.freshWriter false)).2.sink ∧
    (Writer.WriteM doc (Writer.freshWriter true)).2.buffer =
      (Writer.WriteM doc (Writer.freshWriter false)).2.buffer ∧
    (Writer.WriteM doc (Writer.freshWriter true)).2.offsets =
      (Writer.WriteM doc (Writer.freshWriter false)).2.offsets ∧
    (Writer.WriteM doc (Writer.freshWriter true)).2.objects =
      (Writer.WriteM doc (Writer.freshWriter false)).2.objects ∧
    (Writer.WriteM doc (Writer.freshWriter true)).2.nextObjNum =
      (Writer.WriteM doc (Writer.freshWriter false)).2.nextObjNum := by
  have hfw : Writer.freshWriter true = Writer.withMode (Writer.freshWriter false) true := rfl
  have hmode := WriteM_withMode doc (Writer.freshWriter false) true rfl
  rw [hfw, hmode]
  exact ⟨rfl, rfl, rfl, rfl, rfl, rfl⟩

/-! ## Xref and offset correctness infrastructure (claims C1 and C2) -/

theorem mapLookup_mapInsert_ne {α β : Type} [DecidableEq α]
    (m : List (α × β)) {k' k : α} (v : β) (hne : k' ≠ k) :
    mapLookup (mapInsert m k' v) k = mapLookup m k := by
  induction m with
  | nil => simp [mapInsert, mapLookup, hne]
  | cons p rest ih =>
      obtain ⟨k0, v0⟩ := p
      by_cases h : k0 = k'
      · subst h
        simp [mapInsert, mapLookup, hne]
      · simp [mapInsert, mapLookup, h, ih]

theorem emit_emit (w : Writer.PdfW) (a b : List Byte) :
    Writer.emit (Writer.emit w a) b = Writer.emit w (a ++ b) := by
  simp [Writer.emit]

theorem emit_nil (w : Writer.PdfW) : Writer.emit w [] = w := by
  simp [Writer.emit]

theorem totalOut_setOffsets (x : Writer.PdfW) (v : List (Nat × Nat)) :
    Writer.totalOut { x with offsets := v } = Writer.totalOut x := rfl

theorem flushW_sink (x : Writer.PdfW) :
    (Writer.flushW x).sink = Writer.totalOut x := rfl

theorem serializeObject_decomp (o : IndirectObject) :
    serializeObject o =
      objHeader o.Number ++ (strB "\n" ++ o.body ++ strB "\nendobj\n") := by
  have hsplit : strB " 0 obj\n" = strB " 0 obj" ++ strB "\n" := by decide
  simp [serializeObject, objHeader, strB_append, hsplit, List.append_assoc]

theorem objHeader_length_pos (n : Nat) : 0 < (objHeader n).length := by
  have : objHeader n = strB (toString n) ++ strB " 0 obj" := by
    simp [objHeader, strB_append]
  rw [this]
  have : 0 < (strB " 0 obj").length := by decide
  simp [List.length_append]
  omega

theorem headerAt_append (out t : List Byte) (off n : Nat)
    (h : headerAt out off n) : headerAt (out ++ t) off n := by
  unfold headerAt at h ⊢
  have hlen : (objHeader n).length ≤ (out.drop off).length := by
    have h2 := congrArg List.length h
    rw [List.length_take] at h2
    omega
  have hoff : off ≤ out.length := by
    by_contra hlt
    push_neg at hlt
    have hnil : out.drop off = [] := List.drop_eq_nil_of_le (le_of_lt hlt)
    rw [hnil] at hlen
    simp only [List.length_nil, Nat.le_zero] at hlen
    have := objHeader_length_pos n
    omega
  rw [List.drop_append_eq_append_drop]
  have hz : off - out.length = 0 := by omega
  rw [hz, List.drop_zero, List.take_append_of_le_length hlen, h]

theorem headerAt_serialize (pre : List Byte) (o : IndirectObject) :
    headerAt (pre ++ serializeObject o) pre.length o.Number := by
  unfold headerAt
  rw [List.drop_left, serializeObject_decomp, List.take_left]

theorem writeObjects_run (l : List IndirectObject) (w : Writer.PdfW)
    (h : w.cn = w.sink.length) :
    (Writer.writeObjects w l).nextObjNum = w.nextObjNum ∧
    (Writer.writeObjects w l).objects = w.objects ∧
    (∃ t, Writer.totalOut (Writer.writeObjects w l) = Writer.totalOut w ++ t) ∧
    (∀ k, k ∉ l.map IndirectObject.Number →
       mapLookup (Writer.writeObjects w l).offsets k = mapLookup w.offsets k) ∧
    ((l.map IndirectObject.Number).Nodup →
       ∀ o ∈ l, ∃ off, mapLookup (Writer.writeObjects w l).offsets o.Number = some off ∧
         headerAt (Writer.totalOut (Writer.writeObjects w l)) off o.Number) := by
  induction l generalizing w with
  | nil =>
      exact ⟨rfl, rfl, ⟨[], by simp [Writer.writeObjects]⟩, fun _ _ => rfl,
        fun _ o ho => absurd ho (List.not_mem_nil o)⟩
  | cons o rest ih =>
      set w3 := Writer.emit { (Writer.getCurrentOffset w).2 with offsets := mapInsert (Writer.getCurrentOffset w).2.offsets o.Number (Writer.getCurrentOffset w).1 } (serializeObject o) with hw3
      have hstep : Writer.writeObjects w (o :: rest) = Writer.writeObjects w3 rest := rfl
      have h3 : w3.cn = w3.sink.length := by
        simp [hw3, Writer.emit, getCurrentOffset_snd, Writer.flushW, h]
      have hpos : (Writer.getCurrentOffset w).1 = (Writer.totalOut w).length :=
        getCurrentOffset_fst w h
      have hw3offsets : w3.offsets =
          mapInsert w.offsets o.Number (Writer.totalOut w).length := by
        simp [hw3, Writer.emit, getCurrentOffset_snd, Writer.flushW, hpos]
      have hw3total : Writer.totalOut w3 = Writer.totalOut w ++ serializeObject o := by
        simp [hw3, Writer.totalOut, Writer.emit, getCurrentOffset_snd, Writer.flushW]
      have hw3next : w3.nextObjNum = w.nextObjNum := rfl
      have hw3objs : w3.objects = w.objects := rfl
      obtain ⟨ihn, iho, ⟨t, iht⟩, ihpres, ihmain⟩ := ih w3 h3
      rw [hstep]
      refine ⟨by rw [ihn, hw3next], by rw [iho, hw3objs], ?_, ?_, ?_⟩
      · exact ⟨serializeObject o ++ t, by rw [iht, hw3total, List.append_assoc]⟩
      · intro k hk
        simp only [List.map_cons, List.mem_cons] at hk
        push_neg at hk
        rw [ihpres k hk.2, hw3offsets,
            mapLookup_mapInsert_ne _ _ (fun he => hk.1 he.symm)]
      · intro hnd o' ho'
        simp only [List.map_cons, List.nodup_cons] at hnd
        rcases List.mem_cons.mp ho' with he | hr
        · subst he
          refine ⟨(Writer.totalOut w).length, ?_, ?_⟩
          · rw [ihpres _ hnd.1, hw3offsets]
            exact mapLookup_mapInsert_self _ _ _
          · rw [iht]
            apply headerAt_append
            rw [hw3total]
            exact headerAt_serialize _ o'
        · exact ihmain hnd.2 o' hr

theorem writeXRefEntries_run (count : Nat) : ∀ (start : Nat) (w : Writer.PdfW),
    (∀ i, start ≤ i → i < start + count → (mapLookup w.offsets i).isSome = true) →
    (Writer.writeXRefEntries w start count).1 = none ∧
    (Writer.writeXRefEntries w start count).2 = Writer.emit w
      (((List.range count).map (fun j =>
        strB (Writer.xrefEntryLine ((mapLookup w.offsets (start + j)).getD 0)))).flatten) := by
  induction count with
  | zero =>
      intro start w _
      exact ⟨rfl, by simp [Writer.writeXRefEntries, emit_nil]⟩
  | succ k ih =>
      intro start w hall
      have hs : (mapLookup w.offsets start).isSome = true :=
        hall start le_rfl (by omega)
      obtain ⟨off, hoff⟩ := Option.isSome_iff_exists.mp hs
      unfold Writer.writeXRefEntries
      rw [hoff]
      obtain ⟨h1, h2⟩ := ih (start + 1) (Writer.emit w (strB (Writer.xrefEntryLine off)))
        (by
          intro i hi1 hi2
          exact hall i (by omega) (by omega))
      refine ⟨h1, ?_⟩
      rw [h2, emit_emit]
      congr 1
      rw [List.range_succ_eq_map]
      simp only [List.map_cons, List.map_map, List.flatten_cons, Function.comp,
        Nat.add_zero, hoff, Option.getD_some]
      congr 1
      refine congrArg List.flatten ?_
      apply List.map_congr_left
      intro j _
      have harg : start + 1 + j = start + Nat.succ j := by omega
      rw [harg]
      rfl

theorem writeXRef_run (w : Writer.PdfW) (h : w.cn = w.sink.length)
    (hall : ∀ i, 1 ≤ i → i < w.nextObjNum → (mapLookup w.offsets i).isSome = true) :
    (Writer.writeXRef w).1 = Except.ok (Writer.totalOut w).length ∧
    Writer.totalOut (Writer.writeXRef w).2 = Writer.totalOut w ++
      (strB "xref\n" ++ strB ("0 " ++ toString w.nextObjNum ++ "\n") ++
       strB "0000000000 65535 f \n" ++
       ((List.range (w.nextObjNum - 1)).map (fun j =>
         strB (Writer.xrefEntryLine ((mapLookup w.offsets (1 + j)).getD 0)))).flatten) ∧
    (Writer.writeXRef w).2.offsets = w.offsets ∧
    (Writer.writeXRef w).2.nextObjNum = w.nextObjNum ∧
    (Writer.writeXRef w).2.cn = (Writer.writeXRef w).2.sink.length ∧
    (Writer.writeXRef w).2.objects = w.objects := by
  unfold Writer.writeXRef
  set w3 := Writer.emit (Writer.emit (Writer.emit (Writer.getCurrentOffset w).2
    (strB "xref\n")) (strB ("0 " ++ toString (Writer.emit (Writer.getCurrentOffset w).2
      (strB "xref\n")).nextObjNum ++ "\n"))) (strB "0000000000 65535 f \n") with hw3
  have hw3off : w3.offsets = w.offsets := rfl
  have hw3next : w3.nextObjNum = w.nextObjNum := rfl
  have hw3inv : w3.cn = w3.sink.length := by
    simp [hw3, Writer.emit, getCurrentOffset_snd, Writer.flushW, h]
  obtain ⟨e1, e2⟩ := writeXRefEntries_run (w3.nextObjNum - 1) 1 w3
    (by
      intro i hi1 hi2
      rw [hw3off]
      rw [hw3next] at hi2
      exact hall i hi1 (by omega))
  simp only [e1, e2]
  refine ⟨by rw [getCurrentOffset_fst w h], ?_, rfl, rfl, ?_, rfl⟩
  · rw [totalOut_emit]
    have hw3total : Writer.totalOut w3 = Writer.totalOut w ++
        (strB "xref\n" ++ strB ("0 " ++ toString w.nextObjNum ++ "\n") ++
          strB "0000000000 65535 f \n") := by
      simp [hw3, Writer.totalOut, Writer.emit, getCurrentOffset_snd, Writer.flushW,
        List.append_assoc]
    rw [hw3total, hw3off, hw3next, List.append_assoc]
  · exact hw3inv

theorem buildPages_run (pages : List PageModel) : ∀ (parentRef n : Nat),
    (Writer.buildPages pages parentRef n).2.2 = n + pages.length ∧
    (Writer.buildPages pages parentRef n).2.1 = List.range' n pages.length ∧
    (Writer.buildPages pages parentRef n).1.map IndirectObject.Number =
      List.range' n pages.length := by
  induction pages with
  | nil =>
      intro p n
      exact ⟨by simp [Writer.buildPages], rfl, rfl⟩
  | cons pg rest ih =>
      intro p n
      obtain ⟨h1, h2, h3⟩ := ih p (n + 1)
      unfold Writer.buildPages
      refine ⟨?_, ?_, ?_⟩
      · simp only [h1, List.length_cons]
        omega
      · simp only [h2, List.length_cons, List.range'_succ]
      · simp only [List.map_cons, h3, List.length_cons, List.range'_succ, NewIndirectObject]

theorem createPageTree_run (doc : Document) (n0 : Nat) :
    (Writer.createPageTree doc n0).2.1 = n0 ∧
    (Writer.createPageTree doc n0).2.2 = n0 + 1 + doc.pages.length ∧
    (Writer.createPageTree doc n0).1.map IndirectObject.Number =
      n0 :: List.range' (n0 + 1) doc.pages.length := by
  obtain ⟨h1, h2, h3⟩ := buildPages_run doc.pages n0 (n0 + 1)
  unfold Writer.createPageTree
  refine ⟨rfl, ?_, ?_⟩
  · simpa using h1
  · simp only [List.map_cons, h3, Writer.createPagesRootObj, NewIndirectObject]

theorem writeHeaderM_totalOut (w : Writer.PdfW) (v : String) :
    Writer.totalOut (Writer.writeHeaderM w v) =
      Writer.totalOut w ++ (strB ("%PDF-" ++ v ++ "\n") ++ Writer.binaryMarker) := by
  simp [Writer.writeHeaderM, totalOut_emit, List.append_assoc]

theorem writeHeaderM_nextObjNum (w : Writer.PdfW) (v : String) :
    (Writer.writeHeaderM w v).nextObjNum = w.nextObjNum := rfl

theorem assembleDocument_run (doc : Document) (w : Writer.PdfW)
    (hobj : w.objects = []) :
    (Writer.assembleDocument doc w).1.nextObjNum = w.nextObjNum + doc.pages.length + 2 ∧
    (Writer.assembleDocument doc w).2 = w.nextObjNum + 1 + doc.pages.length ∧
    (Writer.assembleDocument doc w).1.objects.map IndirectObject.Number =
      (w.nextObjNum + 1 + doc.pages.length) :: w.nextObjNum ::
        List.range' (w.nextObjNum + 1) doc.pages.length ∧
    Writer.totalOut (Writer.assembleDocument doc w).1 =
      Writer.totalOut w ++ (strB ("%PDF-" ++ doc.version ++ "\n") ++ Writer.binaryMarker) ∧
    (Writer.assembleDocument doc w).1.offsets = w.offsets ∧
    (Writer.assembleDocument doc w).1.cn = w.cn ∧
    (Writer.assembleDocument doc w).1.sink = w.sink := by
  obtain ⟨t1, t2, t3⟩ := createPageTree_run doc w.nextObjNum
  unfold Writer.assembleDocument
  have hnum : (Writer.writeHeaderM w doc.version).nextObjNum = w.nextObjNum := rfl
  have hhobj : (Writer.writeHeaderM w doc.version).objects = w.objects := rfl
  refine ⟨?_, ?_, ?_, ?_, rfl, rfl, rfl⟩
  · simp only [hnum, t2]
    omega
  · simp only [hnum, Writer.createCatalogObj, NewIndirectObject, t2]
  · simp only [hnum, hhobj, hobj, Writer.createCatalogObj, NewIndirectObject,
      List.map_cons, List.nil_append, t3, t2]
  · have : Writer.totalOut ({ ({ Writer.writeHeaderM w doc.version with
        nextObjNum := (Writer.createPageTree doc w.nextObjNum).2.2,
        objects := (Writer.writeHeaderM w doc.version).objects ++ (Writer.createPageTree doc w.nextObjNum).1 } : Writer.PdfW) with
        nextObjNum := (Writer.createPageTree doc w.nextObjNum).2.2 + 1,
        objects := Writer.createCatalogObj (Writer.createPageTree doc w.nextObjNum).2.1 (Writer.createPageTree doc w.nextObjNum).2.2 :: ((Writer.writeHeaderM w doc.version).objects ++ (Writer.createPageTree doc w.nextObjNum).1) } : Writer.PdfW) =
        Writer.totalOut (Writer.writeHeaderM w doc.version) := rfl
    simp only [hnum]
    rw [writeHeaderM_totalOut] at this
    exact this

theorem writeTrailer_run (catalogRef size xrefOffset : Nat) (doc : Document)
    (w : Writer.PdfW) :
    (∃ tail, Writer.totalOut (Writer.writeTrailer catalogRef size xrefOffset doc w) =
      Writer.totalOut w ++ strB "trailer\n" ++
        strB ("<<" ++ " /Size " ++ toString size ++ " /Root "
          ++ toString catalogRef ++ " 0 R") ++ tail) ∧
    (Writer.writeTrailer catalogRef size xrefOffset doc w).nextObjNum =
      (if Writer.metadataPresent doc then w.nextObjNum + 1 else w.nextObjNum) ∧
    (∀ k, k < w.nextObjNum →
      mapLookup (Writer.writeTrailer catalogRef size xrefOffset doc w).offsets k =
        mapLookup w.offsets k) ∧
    (Writer.writeTrailer catalogRef size xrefOffset doc w).cn = w.cn ∧
    (Writer.writeTrailer catalogRef size xrefOffset doc w).sink = w.sink := by
  cases hm : Writer.metadataPresent doc with
  | false =>
      refine ⟨⟨strB " >>" ++ strB "\n" ++ strB "startxref\n"
          ++ strB (toString xrefOffset) ++ strB "\n" ++ strB "%%EOF\n", ?_⟩,
        ?_, ?_, ?_, ?_⟩ <;>
        simp [Writer.writeTrailer, hm, totalOut_emit, strB_append, List.append_assoc,
          Writer.emit, Writer.totalOut]
  | true =>
      refine ⟨⟨strB " /Info " ++ strB (toString w.nextObjNum) ++ strB " 0 R"
          ++ strB " >>" ++ strB "\n" ++ strB "startxref\n"
          ++ strB (toString xrefOffset) ++ strB "\n" ++ strB "%%EOF\n", ?_⟩,
        ?_, ?_, ?_, ?_⟩
      · simp [Writer.writeTrailer, hm, totalOut_emit, strB_append, List.append_assoc,
          Writer.emit, Writer.totalOut]
      · simp [Writer.writeTrailer, hm, Writer.emit]
      · intro k hk
        have hne : w.nextObjNum ≠ k := by omega
        simp [Writer.writeTrailer, hm, Writer.emit, mapLookup_mapInsert_ne _ _ hne]
      · simp [Writer.writeTrailer, hm, Writer.emit]
      · simp [Writer.writeTrailer, hm, Writer.emit]

theorem docNumbers_nodup (k : Nat) :
    (((k + 2) :: 1 :: List.range' 2 k : List Nat)).Nodup := by
  simp [List.nodup_cons, List.mem_cons, List.mem_range'_1, List.nodup_range']
  omega

theorem docNumbers_cover (k i : Nat) (h1 : 1 ≤ i) (h2 : i < k + 3) :
    i ∈ ((k + 2) :: 1 :: List.range' 2 k : List Nat) := by
  simp [List.mem_cons, List.mem_range'_1]
  omega

/-- Claim C2, amended: for every successful Write of a valid document from a
fresh writer, the /Size value emitted in the xref subsection header and the
trailer equals 1 plus the number of object numbers allocated when the xref
table is written (pages + root + catalog); the xref table carries exactly
one n entry per object number in [1, Size), positionally, whose offset is
the byte position of that object's header in the output; when metadata is
present one further number (the Info object) is allocated during trailer
writing, so the final allocation count exceeds Size - 1 by one. -/
theorem claim_C2 (doc : Document) (b : Bool) (hpages : doc.pages ≠ []) :
    (Writer.WriteM doc (Writer.freshWriter b)).1 = Except.ok () ∧
    (Writer.WriteM doc (Writer.freshWriter b)).2.nextObjNum =
      (if Writer.metadataPresent doc then doc.pages.length + 4
       else doc.pages.length + 3) ∧
    (Writer.WriteM doc (Writer.freshWriter b)).2.buffer = [] ∧
    ∃ (offs : Nat → Nat) (body tail : List Byte),
      (Writer.WriteM doc (Writer.freshWriter b)).2.sink =
        body ++
        (strB "xref\n" ++ strB ("0 " ++ toString (doc.pages.length + 3) ++ "\n") ++
          strB "0000000000 65535 f \n" ++
          ((List.range (doc.pages.length + 2)).map (fun j =>
            strB (Writer.xrefEntryLine (offs (1 + j))))).flatten) ++
        (strB "trailer\n" ++
          strB ("<<" ++ " /Size " ++ toString (doc.pages.length + 3) ++ " /Root "
            ++ toString (doc.pages.length + 2) ++ " 0 R")) ++ tail ∧
      (∀ i, 1 ≤ i → i < doc.pages.length + 3 →
        headerAt (Writer.WriteM doc (Writer.freshWriter b)).2.sink (offs i) i) := by
  have hval : docValidate doc = none := by
    simp [docValidate, List.isEmpty_iff, hpages]
  have hrun : Writer.WriteM doc (Writer.freshWriter b) =
      Writer.writeBody doc (Writer.assembleDocument doc (Writer.freshWriter b)).2
        (Writer.assembleDocument doc (Writer.freshWriter b)).1 := by
    unfold Writer.WriteM
    simp only [hval]
    rfl
  set k := doc.pages.length with hk
  obtain ⟨A1, A2, A3, A4, A5, A6, A7⟩ :=
    assembleDocument_run doc (Writer.freshWriter b) rfl
  set a := Writer.assembleDocument doc (Writer.freshWriter b) with ha
  have hfw1 : (Writer.freshWriter b).nextObjNum = 1 := rfl
  rw [hfw1] at A1 A2 A3
  have hnumsEq : (1 + 1 + k) :: 1 :: List.range' (1 + 1) k =
      ((k + 2) :: 1 :: List.range' 2 k : List Nat) := by
    have h12 : 1 + 1 + k = k + 2 := by omega
    norm_num [h12]
  rw [hnumsEq] at A3
  have hinv1 : a.1.cn = a.1.sink.length := by
    rw [A6, A7]
    rfl
  obtain ⟨O1, O2, ⟨t0, O3⟩, O4, O5main⟩ := writeObjects_run a.1.objects a.1 hinv1
  have hnodup : (a.1.objects.map IndirectObject.Number).Nodup := by
    rw [A3]
    exact docNumbers_nodup k
  have O5 := O5main hnodup
  set w1 := Writer.writeObjects a.1 a.1.objects with hw1
  have hw1next : w1.nextObjNum = k + 3 := by
    rw [O1, A1]
    omega
  have hinv2 : w1.cn = w1.sink.length := writeObjects_cnInv _ _ hinv1
  have hall : ∀ i, 1 ≤ i → i < w1.nextObjNum →
      (mapLookup w1.offsets i).isSome = true := by
    intro i hi1 hi2
    rw [hw1next] at hi2
    have hmem : i ∈ a.1.objects.map IndirectObject.Number := by
      rw [A3]
      exact docNumbers_cover k i hi1 hi2
    obtain ⟨o, ho, hoe⟩ := List.mem_map.mp hmem
    obtain ⟨off, hoff, _⟩ := O5 o ho
    rw [← hoe, hoff]
    rfl
  obtain ⟨X1, X2, X3, X4, X5, X6⟩ := writeXRef_run w1 hinv2 hall
  set xr := Writer.writeXRef w1 with hxr
  have hbody : Writer.writeBody doc a.2 a.1 =
      (Except.ok (), Writer.flushW (Writer.writeTrailer a.2 xr.2.nextObjNum
        (Writer.totalOut w1).length doc xr.2)) := by
    simp only [Writer.writeBody]
    rw [← hw1, ← hxr]
    simp only [X1]
  obtain ⟨⟨tail0, T1⟩, T2, T3, T4, T5⟩ :=
    writeTrailer_run a.2 xr.2.nextObjNum (Writer.totalOut w1).length doc xr.2
  rw [hrun, hbody]
  have hsink : (Writer.flushW (Writer.writeTrailer a.2 xr.2.nextObjNum
      (Writer.totalOut w1).length doc xr.2)).sink =
      Writer.totalOut (Writer.writeTrailer a.2 xr.2.nextObjNum
        (Writer.totalOut w1).length doc xr.2) := flushW_sink _
  refine ⟨rfl, ?_, rfl, ?_⟩
  · show (Writer.writeTrailer a.2 xr.2.nextObjNum
      (Writer.totalOut w1).length doc xr.2).nextObjNum = _
    rw [T2, X4, hw1next]
  · refine ⟨fun i => (mapLookup w1.offsets i).getD 0, Writer.totalOut w1, tail0, ?_, ?_⟩
    · show (Writer.flushW _).sink = _
      rw [hsink, T1, X2, X4, hw1next, A2]
      have h2k : 1 + 1 + k = k + 2 := by omega
      rw [h2k]
      have hcount : k + 3 - 1 = k + 2 := by omega
      rw [hcount]
      simp only [List.append_assoc]
    · intro i hi1 hi2
      have hmem : i ∈ a.1.objects.map IndirectObject.Number := by
        rw [A3]
        exact docNumbers_cover k i hi1 hi2
      obtain ⟨o, ho, hoe⟩ := List.mem_map.mp hmem
      obtain ⟨off, hoff, hhead⟩ := O5 o ho
      show headerAt (Writer.flushW _).sink _ i
      rw [hsink, T1, X2]
      subst hoe
      simp only [hoff, Option.getD_some, ← List.append_assoc]
      apply headerAt_append
      apply headerAt_append
      apply headerAt_append
      apply headerAt_append
      apply headerAt_append
      apply headerAt_append
      apply headerAt_append
      exact hhead

theorem claim_C2_witness :
    Writer.sampleDoc.pages ≠ [] ∧
    ((Writer.WriteM Writer.sampleDoc (Writer.freshWriter true)).1 = Except.ok () ∧
     (Writer.WriteM Writer.sampleDoc (Writer.freshWriter true)).2.nextObjNum =
       (if Writer.metadataPresent Writer.sampleDoc then Writer.sampleDoc.pages.length + 4
        else Writer.sampleDoc.pages.length + 3) ∧
     (Writer.WriteM Writer.sampleDoc (Writer.freshWriter true)).2.buffer = [] ∧
     ∃ (offs : Nat → Nat) (body tail : List Byte),
       (Writer.WriteM Writer.sampleDoc (Writer.freshWriter true)).2.sink =
         body ++
         (strB "xref\n" ++ strB ("0 " ++ toString (Writer.sampleDoc.pages.length + 3) ++ "\n") ++
           strB "0000000000 65535 f \n" ++
           ((List.range (Writer.sampleDoc.pages.length + 2)).map (fun j =>
             strB (Writer.xrefEntryLine (offs (1 + j))))).flatten) ++
         (strB "trailer\n" ++
           strB ("<<" ++ " /Size " ++ toString (Writer.sampleDoc.pages.length + 3) ++ " /Root "
             ++ toString (Writer.sampleDoc.pages.length + 2) ++ " 0 R")) ++ tail ∧
       (∀ i, 1 ≤ i → i < Writer.sampleDoc.pages.length + 3 →
         headerAt (Writer.WriteM Writer.sampleDoc (Writer.freshWriter true)).2.sink (offs i) i)) :=
  ⟨by simp [Writer.sampleDoc], claim_C2 Writer.sampleDoc true (by simp [Writer.sampleDoc])⟩

set_option maxRecDepth 1000000 in
set_option maxHeartbeats 4000000 in
/-- Claim C2, counterexample to the literal statement: for the one-page
document with a title, the trailer emits /Size 4, yet the call allocates
four object numbers in total (pages root, page, catalog, and the Info
number handed out during trailer writing, leaving the allocator at 5), so
Size equals the total allocated rather than 1 plus it. -/
theorem claim_C2_counterexample :
    (Writer.WriteM Writer.sampleDocMeta (Writer.freshWriter true)).1 = Except.ok () ∧
    (Writer.WriteM Writer.sampleDocMeta (Writer.freshWriter true)).2.nextObjNum = 5 ∧
    containsSeg (Writer.WriteM Writer.sampleDocMeta (Writer.freshWriter true)).2.sink
      (strB " /Size 4 /Root 3 0 R /Info 4 0 R") = true ∧
    (4 : Nat) ≠ 1 + (5 - 1) := by
  exact ⟨rfl, by decide, by decide, by decide⟩

set_option maxRecDepth 1000000 in
set_option maxHeartbeats 4000000 in
/-- Claim C1: refuted by the code. For the one-page document with title "T"
(metadata present) the Write succeeds, but the Info object is allocated only
while the trailer is being written, after the xref table has been emitted:
the offset recorded for object number 4 (the Info number) is 221, which is
the byte position of the literal "xref" table itself, and no "4 0 obj"
header is ever serialized into the output — contradicting the requirement
that the Info object be allocated and fully serialized before the xref table
with its real offset recorded. -/
theorem claim_C1 :
    Writer.metadataPresent Writer.sampleDocMeta = true ∧
    (Writer.WriteM Writer.sampleDocMeta (Writer.freshWriter true)).1 = Except.ok () ∧
    mapLookup (Writer.WriteM Writer.sampleDocMeta (Writer.freshWriter true)).2.offsets 4 =
      some 221 ∧
    ((Writer.WriteM Writer.sampleDocMeta (Writer.freshWriter true)).2.sink.drop 221).take
      (strB "xref").length = strB "xref" ∧
    containsSeg (Writer.WriteM Writer.sampleDocMeta (Writer.freshWriter true)).2.sink
      (strB "4 0 obj") = false := by
  exact ⟨by decide, rfl, by decide, by decide, by decide⟩

end GxPdf
